import Mathlib

/-!
# Verification of the debt payoff simulation engine

This file embeds the debt-payoff simulation engine of the repository
(`src/utils/calculations.ts` and `src/utils/debtOptimizer.ts`) as executable
Lean definitions over `ℚ`, and proves/refutes the frozen claims about it.

Modelling conventions:
* JavaScript numbers are modelled by `ℚ` (exact rational arithmetic); the
  `0.01` tolerance of the source is the literal `1/100`.
* `while` loops with a month counter bounded by a ceiling are modelled by
  structural recursion on a fuel argument equal to the ceiling; the source's
  guard `month <= 600` with `month` starting at 1 is exactly 600 iterations.
* `Array.prototype.sort` (stable in ECMAScript) composed with `[0]` is
  modelled by a stable insertion sort by the same comparator followed by
  `head?`; the element picked is identified by its index in the state list,
  mirroring the source's mutation of the selected object in place.
* `Date` fields are dropped: no claim concerns calendar dates.
* Console logging is dropped: it does not affect any computed value.
-/

namespace PF

/-- Input loan record (`Loan` in `src/types/index.ts`); only the fields used by
the simulation math are kept (`name`, `type`, `color`, `currency` are display
metadata). -/
structure Loan where
  id : Nat
  currentBalance : ℚ
  interestRate : ℚ
  monthlyPayment : ℚ
  fees : ℚ
  termMonths : Nat
deriving DecidableEq, Repr

/-- One row of a single-loan amortization schedule
(`PaymentScheduleItem`, `src/types/index.ts`). -/
structure PaymentScheduleItem where
  month : Nat
  monthlyPayment : ℚ
  principal : ℚ
  interest : ℚ
  fees : ℚ
  extraPayment : ℚ
  remainingBalance : ℚ
  cumulativeInterest : ℚ
  cumulativePrincipal : ℚ
deriving DecidableEq, Repr

/-- Loop body of `generateAmortizationSchedule` (`calculations.ts` lines
54-82).  `fuel` counts the remaining iterations allowed by the guard
`month <= loan.termMonths * 3`. -/
def amortLoop (loan : Loan) (extraPayment : ℚ) :
    Nat → Nat → ℚ → ℚ → ℚ → List PaymentScheduleItem
  | 0, _, _, _, _ => []
  | fuel + 1, month, remainingBalance, cumI, cumP =>
    if 1/100 < remainingBalance then
      let interestPayment := remainingBalance * (loan.interestRate / 100 / 12)
      let principalPayment :=
        min (loan.monthlyPayment - interestPayment + extraPayment) remainingBalance
      let rb := remainingBalance - principalPayment
      { month := month, monthlyPayment := loan.monthlyPayment,
        principal := principalPayment, interest := interestPayment,
        fees := loan.fees, extraPayment := extraPayment,
        remainingBalance := max 0 rb,
        cumulativeInterest := cumI + interestPayment,
        cumulativePrincipal := cumP + principalPayment } ::
        (if rb ≤ 0 then []
         else amortLoop loan extraPayment fuel (month + 1) rb
            (cumI + interestPayment) (cumP + principalPayment))
    else []

/-- `generateAmortizationSchedule(loan, extraPayment, lumpSum)`
(`calculations.ts` lines 37-87).  The lump sum is subtracted from the starting
balance and seeds `cumulativePrincipal`. -/
def generateAmortizationSchedule (loan : Loan) (extraPayment : ℚ) (lumpSum : ℚ) :
    List PaymentScheduleItem :=
  amortLoop loan extraPayment (loan.termMonths * 3) 1 (loan.currentBalance - lumpSum) 0 lumpSum

/-- Mutable per-loan simulation state (`LoanState` in `debtOptimizer.ts`);
`paidOffMonth`, `previousBalance`, `previousInterest` are dropped (never read
by any computation a claim concerns). -/
structure LoanState where
  id : Nat
  currentBalance : ℚ
  interestRate : ℚ
  originalMonthlyPayment : ℚ
  currentMinimumPayment : ℚ
  isPaidOff : Bool
deriving DecidableEq, Repr

/-- Per-loan per-month payment record (`DebtPaymentPlan`, `debtOptimizer.ts`
lines 6-20; the optional `freedPayment`/`scrapeSaving` fields are dropped:
no claim mentions them). -/
structure DebtPaymentPlan where
  loanId : Nat
  month : Nat
  currentBalance : ℚ
  monthlyInterest : ℚ
  minimumPayment : ℚ
  principalPayment : ℚ
  extraPayment : ℚ
  totalPayment : ℚ
  remainingBalance : ℚ
  isExtraPayment : Bool
  isPaidOff : Bool
deriving DecidableEq, Repr

/-- Cross-loan monthly plan (`MonthlyPaymentPlan`, `debtOptimizer.ts` lines
22-34; `date` and the always-zero `totalScrapeSavings` are dropped). -/
structure MonthlyPaymentPlan where
  month : Nat
  payments : List DebtPaymentPlan
  totalPayment : ℚ
  totalInterest : ℚ
  totalPrincipal : ℚ
  remainingDebts : Nat
  extraPaymentPool : ℚ
  totalFreedPayments : ℚ
  activeLoanCount : Nat
deriving DecidableEq, Repr

/-- Initial `LoanState` built by `calculateBaselineSchedule`
(`debtOptimizer.ts` lines 55-65). -/
def initLoanState (loan : Loan) : LoanState :=
  { id := loan.id, currentBalance := loan.currentBalance,
    interestRate := loan.interestRate,
    originalMonthlyPayment := loan.monthlyPayment,
    currentMinimumPayment := loan.monthlyPayment, isPaidOff := false }

/-- `loanState.currentBalance * (loanState.interestRate / 100 / 12)`. -/
def monthlyInterestOf (ls : LoanState) : ℚ :=
  ls.currentBalance * (ls.interestRate / 100 / 12)

/-- Per-loan body of the baseline month loop (`debtOptimizer.ts` lines
88-134): minimum payment only, principal clamped into `[0, balance]`. -/
def baselineLoanStep (month : Nat) (ls : LoanState) :
    LoanState × Option DebtPaymentPlan :=
  if ls.isPaidOff = false ∧ 1/100 < ls.currentBalance then
    let monthlyInterest := monthlyInterestOf ls
    let p1 := ls.currentMinimumPayment - monthlyInterest
    let p2 := if ls.currentBalance < p1 then ls.currentBalance else p1
    let principalPayment := if p2 < 0 then 0 else p2
    let bal := ls.currentBalance - principalPayment
    let paid : Bool := decide (bal ≤ 1/100)
    let newBal : ℚ := if paid then 0 else bal
    ({ ls with currentBalance := newBal, isPaidOff := paid },
      some { loanId := ls.id, month := month,
             currentBalance := newBal + principalPayment,
             monthlyInterest := monthlyInterest,
             minimumPayment := ls.currentMinimumPayment,
             principalPayment := principalPayment, extraPayment := 0,
             totalPayment := ls.currentMinimumPayment,
             remainingBalance := newBal, isExtraPayment := false,
             isPaidOff := paid })
  else (ls, none)

/-- One month of `calculateBaselineSchedule`: runs every loan's step and
aggregates the month's totals (`debtOptimizer.ts` lines 74-137). -/
def baselineMonth (month : Nat) (states : List LoanState) :
    List LoanState × MonthlyPaymentPlan :=
  let results := states.map (baselineLoanStep month)
  let newStates := results.map Prod.fst
  let recs := results.filterMap Prod.snd
  let active := (states.filter (fun l => !l.isPaidOff)).length
  (newStates,
    { month := month, payments := recs,
      totalPayment := (recs.map DebtPaymentPlan.totalPayment).sum,
      totalInterest := (recs.map DebtPaymentPlan.monthlyInterest).sum,
      totalPrincipal := (recs.map DebtPaymentPlan.principalPayment).sum,
      remainingDebts := active, extraPaymentPool := 0,
      totalFreedPayments := 0, activeLoanCount := active })

/-- The baseline `while` loop (`debtOptimizer.ts` line 73):
`while (loanStates.some(loan => !loan.isPaidOff) && month <= 600)`. -/
def baselineLoop : Nat → Nat → List LoanState → List MonthlyPaymentPlan
  | 0, _, _ => []
  | fuel + 1, month, states =>
    if states.any (fun l => !l.isPaidOff) then
      let step := baselineMonth month states
      step.2 :: baselineLoop fuel (month + 1) step.1
    else []

/-- `calculateBaselineSchedule(loans)` (`debtOptimizer.ts` lines 52-143). -/
def calculateBaselineSchedule (loans : List Loan) : List MonthlyPaymentPlan :=
  baselineLoop 600 1 (loans.map initLoanState)

/-! ## Stable sort by a numeric comparator

ECMAScript's `Array.prototype.sort` is stable; composed with `[0]` it selects
the least element under the comparator, earliest-first on ties.  We model it
by a stable insertion sort: `x` is inserted before the first `y` with
`cmp x y ≤ 0` (every element of the already-sorted tail came later in the
original array than `x`, so on a tie `x` must precede it). -/

/-- Insert `x` (an element preceding all of `l` in original order) into the
sorted list `l`. -/
def insertCmp (cmp : α → α → ℚ) (x : α) : List α → List α
  | [] => [x]
  | y :: ys => if cmp x y ≤ 0 then x :: y :: ys else y :: insertCmp cmp x ys

/-- Stable sort by comparator `cmp`, processing the list right to left. -/
def sortCmp (cmp : α → α → ℚ) : List α → List α
  | [] => []
  | x :: xs => insertCmp cmp x (sortCmp cmp xs)

/-- Pair each element with its index, starting at `n`. -/
def enumFrom (n : Nat) : List α → List (Nat × α)
  | [] => []
  | x :: xs => (n, x) :: enumFrom (n + 1) xs

/-- `loanStates.filter(pred).sort(cmp)[0]`, keeping the selected loan's index
into `states` (the source mutates the selected object in place; the index
plays the role of that object identity). -/
def selectTargetIdx (cmp : LoanState → LoanState → ℚ) (pred : LoanState → Bool)
    (states : List LoanState) : Option (Nat × LoanState) :=
  (sortCmp (fun a b => cmp a.2 b.2) ((enumFrom 0 states).filter (fun p => pred p.2))).head?

/-- `monthlyPlan.payments.find(p => p.loanId === targetId)` followed by the
in-place update of the found record (`debtOptimizer.ts` lines 255-263 and the
analogous blocks of the other strategies). -/
def updateRecord (targetId : Nat) (extraPrincipal : ℚ) (newBal : ℚ) (paid : Bool) :
    List DebtPaymentPlan → List DebtPaymentPlan
  | [] => []
  | r :: rs =>
    if r.loanId = targetId then
      { r with
        extraPayment := extraPrincipal
        principalPayment := r.principalPayment + extraPrincipal
        totalPayment := r.totalPayment + extraPrincipal
        remainingBalance := newBal
        isExtraPayment := true
        isPaidOff := paid } :: rs
    else r :: updateRecord targetId extraPrincipal newBal paid rs

/-! ## Strategy engines -/

/-- Strategy tag (`type` field of `DebtOptimizationStrategy`). -/
inductive StrategyKind
  | avalancheFixed
  | snowballFixed
  | snowballScrapes
deriving DecidableEq, Repr

/-- Per-loan strategy analysis (`calculatePerDebtDetails` result rows);
`loanName` and `payoffDate` are dropped. -/
structure PerDebtDetail where
  loanId : Nat
  totalInterest : ℚ
  interestSaved : ℚ
  monthsSaved : Nat
  payoffMonth : Nat
deriving DecidableEq, Repr

/-- Strategy result (`DebtOptimizationStrategy`); the string fields and
`payoffDate` are dropped.  `monthsSaved` uses `Nat` subtraction, which agrees
with the source's `Math.max(0, baselineMonths - strategyMonths)`. -/
structure DebtOptimizationStrategy where
  kind : StrategyKind
  totalInterest : ℚ
  interestSaved : ℚ
  monthsSaved : Nat
  monthlySchedule : List MonthlyPaymentPlan
  perDebtDetails : List PerDebtDetail
deriving DecidableEq, Repr

/-- Initial state of the avalanche/snowball-fixed engines: the lump sum is
distributed in proportion to each loan's share of the total starting balance
(`debtOptimizer.ts` lines 156-166 and 308-318).  `ℚ` has `x / 0 = 0`, so a
zero total makes the lump term vanish; the term also vanishes whenever
`lumpSum = 0`, as in every claim exercising this code path. -/
def lumpAdjustedState (loans : List Loan) (lumpSum : ℚ) (loan : Loan) : LoanState :=
  let total := (loans.map Loan.currentBalance).sum
  { id := loan.id,
    currentBalance := loan.currentBalance - lumpSum * (loan.currentBalance / total),
    interestRate := loan.interestRate,
    originalMonthlyPayment := loan.monthlyPayment,
    currentMinimumPayment := loan.monthlyPayment, isPaidOff := false }

/-- Avalanche target comparator (`debtOptimizer.ts` lines 235-240): highest
interest rate first; on a rate tie (within 0.01) larger balance first. -/
def avalancheCmp (a b : LoanState) : ℚ :=
  if |a.interestRate - b.interestRate| < 1/100 then b.currentBalance - a.currentBalance
  else b.interestRate - a.interestRate

/-- Snowball-fixed target comparator, exactly as written in the source
(`debtOptimizer.ts` lines 392-397): note that the 0.01 tie test is on
`interestRate` (not balance), so two loans with close rates compare as equal
regardless of balance. -/
def snowballFixedCmp (a b : LoanState) : ℚ :=
  if |a.interestRate - b.interestRate| < 1/100 then b.interestRate - a.interestRate
  else a.currentBalance - b.currentBalance

/-- Scrapes target comparator (`debtOptimizer.ts` lines 612-617): smallest
balance first; on a balance tie (within 0.01) higher rate first. -/
def scrapesCmp (a b : LoanState) : ℚ :=
  if |a.currentBalance - b.currentBalance| < 1/100 then b.interestRate - a.interestRate
  else a.currentBalance - b.currentBalance

/-- Phase-1 per-loan body of `calculateAvalancheFixedStrategy`
(`debtOptimizer.ts` lines 190-227).  Note: no clamping of a negative
principal — `principalPayment = min(minimumPayment - interest, balance)` is
applied as-is. -/
def avalancheLoanStep (month : Nat) (ls : LoanState) :
    LoanState × Option DebtPaymentPlan :=
  if ls.isPaidOff = false then
    let monthlyInterest := monthlyInterestOf ls
    let principalPayment := min (ls.currentMinimumPayment - monthlyInterest) ls.currentBalance
    let bal := ls.currentBalance - principalPayment
    let paid : Bool := decide (bal ≤ 1/100)
    let newBal : ℚ := if paid then 0 else bal
    ({ ls with currentBalance := newBal, isPaidOff := paid },
      some { loanId := ls.id, month := month,
             currentBalance := newBal + principalPayment,
             monthlyInterest := monthlyInterest,
             minimumPayment := ls.currentMinimumPayment,
             principalPayment := principalPayment, extraPayment := 0,
             totalPayment := ls.currentMinimumPayment,
             remainingBalance := newBal, isExtraPayment := false,
             isPaidOff := paid })
  else (ls, none)

/-- Phase-1 per-loan body of `calculateSnowballFixedStrategy`
(`debtOptimizer.ts` lines 342-385): like avalanche but a negative principal
is replaced by `min(balance, 50)`. -/
def snowballLoanStep (month : Nat) (ls : LoanState) :
    LoanState × Option DebtPaymentPlan :=
  if ls.isPaidOff = false then
    let monthlyInterest := monthlyInterestOf ls
    let p1 := min (ls.currentMinimumPayment - monthlyInterest) ls.currentBalance
    let principalPayment := if p1 < 0 then min ls.currentBalance 50 else p1
    let bal := ls.currentBalance - principalPayment
    let paid : Bool := decide (bal ≤ 1/100)
    let newBal : ℚ := if paid then 0 else bal
    ({ ls with currentBalance := newBal, isPaidOff := paid },
      some { loanId := ls.id, month := month,
             currentBalance := newBal + principalPayment,
             monthlyInterest := monthlyInterest,
             minimumPayment := ls.currentMinimumPayment,
             principalPayment := principalPayment, extraPayment := 0,
             totalPayment := ls.currentMinimumPayment,
             remainingBalance := newBal, isExtraPayment := false,
             isPaidOff := paid })
  else (ls, none)

/-- Phase 2 of the fixed strategies: apply `min(extra, balance)` of principal
to the loan at index `i` of `states` and patch its payment record
(`debtOptimizer.ts` lines 242-267 / 399-425). -/
def applyExtraAt (extra : ℚ) (i : Nat) (t : LoanState)
    (states : List LoanState) (plan : MonthlyPaymentPlan) :
    List LoanState × MonthlyPaymentPlan :=
  let extraPrincipal := min extra t.currentBalance
  let bal := t.currentBalance - extraPrincipal
  let paid : Bool := decide (bal ≤ 1/100)
  let newBal : ℚ := if paid then 0 else bal
  (states.set i { t with currentBalance := newBal, isPaidOff := paid },
    { plan with
      payments := updateRecord t.id extraPrincipal newBal paid plan.payments
      totalPayment := plan.totalPayment + extraPrincipal
      totalPrincipal := plan.totalPrincipal + extraPrincipal })

/-- One month of a fixed strategy (avalanche or snowball-fixed), parameterised
by the phase-1 step and the phase-2 comparator. -/
def fixedStrategyMonth (step : Nat → LoanState → LoanState × Option DebtPaymentPlan)
    (cmp : LoanState → LoanState → ℚ) (fixedExtraPayment : ℚ) (month : Nat)
    (states : List LoanState) : List LoanState × MonthlyPaymentPlan :=
  let results := states.map (step month)
  let s1 := results.map Prod.fst
  let recs := results.filterMap Prod.snd
  let active := (states.filter (fun l => !l.isPaidOff)).length
  let plan0 : MonthlyPaymentPlan :=
    { month := month, payments := recs,
      totalPayment := (recs.map DebtPaymentPlan.totalPayment).sum,
      totalInterest := (recs.map DebtPaymentPlan.monthlyInterest).sum,
      totalPrincipal := (recs.map DebtPaymentPlan.principalPayment).sum,
      remainingDebts := active, extraPaymentPool := fixedExtraPayment,
      totalFreedPayments := 0, activeLoanCount := active }
  if 0 < fixedExtraPayment then
    match selectTargetIdx cmp (fun l => !l.isPaidOff) s1 with
    | some (i, t) => applyExtraAt fixedExtraPayment i t s1 plan0
    | none => (s1, plan0)
  else (s1, plan0)

/-- The 600-month loop shared by the two fixed strategies
(`debtOptimizer.ts` lines 174 and 326; the redundant bottom-of-loop
`every(isPaidOff)` break only skips a date increment and does not change the
emitted schedule). -/
def fixedStrategyLoop (step : Nat → LoanState → LoanState × Option DebtPaymentPlan)
    (cmp : LoanState → LoanState → ℚ) (fixedExtraPayment : ℚ) :
    Nat → Nat → List LoanState → List MonthlyPaymentPlan
  | 0, _, _ => []
  | fuel + 1, month, states =>
    if states.any (fun l => !l.isPaidOff) then
      let step1 := fixedStrategyMonth step cmp fixedExtraPayment month states
      step1.2 :: fixedStrategyLoop step cmp fixedExtraPayment fuel (month + 1) step1.1
    else []

/-! ## Snowball + scrapes -/

/-- Helper for the scrapes lump-sum pass (`debtOptimizer.ts` lines 475-513):
walks the loans in input order, threading the remaining lump sum.  A loan
receives lump sum only if every loan strictly before it in the
sorted-by-balance order has a non-positive original balance. -/
def scrapesLumpGo (sortedLoans : List Loan) (loans : List Loan) :
    List Loan → ℚ → List (Loan × ℚ)
  | [], _ => []
  | loan :: rest, remaining =>
    if 0 < remaining then
      if (sortedLoans.take (sortedLoans.findIdx (fun l => l.id = loan.id))).any (fun sl =>
          match loans.find? (fun l => l.id = sl.id) with
          | some l0 => decide (0 < l0.currentBalance)
          | none => false) then
        (loan, loan.currentBalance) :: scrapesLumpGo sortedLoans loans rest remaining
      else
        (loan, max 0 (loan.currentBalance - min remaining loan.currentBalance)) ::
          scrapesLumpGo sortedLoans loans rest (remaining - min remaining loan.currentBalance)
    else (loan, loan.currentBalance) :: scrapesLumpGo sortedLoans loans rest remaining

/-- Post-lump-sum starting balance of every loan, in input order
(`debtOptimizer.ts` lines 471-498). -/
def scrapesLumpBalances (loans : List Loan) (lumpSum : ℚ) : List (Loan × ℚ) :=
  scrapesLumpGo (sortCmp (fun a b => a.currentBalance - b.currentBalance) loans) loans
    loans lumpSum

/-- Initial scrapes loan states together with the initial freed-payment pool:
a loan whose post-lump balance is `≤ 0.01` starts paid off and its original
minimum payment seeds the pool (`debtOptimizer.ts` lines 500-532). -/
def scrapesInit (loans : List Loan) (lumpSum : ℚ) : List LoanState × ℚ :=
  let states := (scrapesLumpBalances loans lumpSum).map (fun (p : Loan × ℚ) =>
    { id := p.1.id, currentBalance := p.2, interestRate := p.1.interestRate,
      originalMonthlyPayment := p.1.monthlyPayment,
      currentMinimumPayment := p.1.monthlyPayment,
      isPaidOff := decide (p.2 ≤ 1/100) : LoanState })
  (states, ((states.filter LoanState.isPaidOff).map LoanState.originalMonthlyPayment).sum)

/-- Phase-1 per-loan body of `calculateSnowballScrapesStrategy`
(`debtOptimizer.ts` lines 562-604).  Returns the new state, the payment
record, and the freed payment contributed if the loan pays off this step.
The record uses `originalMonthlyPayment` (lines 590, 593). -/
def scrapesLoanStep (month : Nat) (ls : LoanState) :
    LoanState × Option DebtPaymentPlan × ℚ :=
  if ls.isPaidOff = false ∧ 1/100 < ls.currentBalance then
    let monthlyInterest := monthlyInterestOf ls
    let p1 := min (ls.currentMinimumPayment - monthlyInterest) ls.currentBalance
    let principalPayment := if p1 < 0 then min ls.currentBalance 50 else p1
    let bal := ls.currentBalance - principalPayment
    let paid : Bool := decide (bal ≤ 1/100)
    let newBal : ℚ := if paid then 0 else bal
    ({ ls with currentBalance := newBal, isPaidOff := paid },
      some { loanId := ls.id, month := month,
             currentBalance := newBal + principalPayment,
             monthlyInterest := monthlyInterest,
             minimumPayment := ls.originalMonthlyPayment,
             principalPayment := principalPayment, extraPayment := 0,
             totalPayment := ls.originalMonthlyPayment,
             remainingBalance := newBal, isExtraPayment := false,
             isPaidOff := paid },
      if paid then ls.originalMonthlyPayment else 0)
  else (ls, none, 0)

/-- Phase 2 of the scrapes engine (`debtOptimizer.ts` lines 619-646): apply
the surplus to the target at index `i`, patch its record, and add its freed
payment to this month's `newFreedPayments` if it pays off. -/
def scrapesApplyExtra (totalExtraPayment : ℚ) (i : Nat) (t : LoanState)
    (s1 : List LoanState) (plan0 : MonthlyPaymentPlan) (newFreed1 : ℚ) :
    List LoanState × MonthlyPaymentPlan × ℚ :=
  let extraPrincipal := min totalExtraPayment t.currentBalance
  let bal := t.currentBalance - extraPrincipal
  let paid : Bool := decide (bal ≤ 1/100)
  let newBal : ℚ := if paid then 0 else bal
  (s1.set i { t with currentBalance := newBal, isPaidOff := paid },
    { plan0 with
      payments := updateRecord t.id extraPrincipal newBal paid plan0.payments
      totalPayment := plan0.totalPayment + extraPrincipal
      totalPrincipal := plan0.totalPrincipal + extraPrincipal },
    newFreed1 + (if paid then t.originalMonthlyPayment else 0))

/-- One month of the scrapes engine (`debtOptimizer.ts` lines 537-656).
Returns the new states, the monthly plan, and the updated freed-payment pool
(`freedPaymentPool + newFreedPayments`); the surplus applied this month is
`extraPaymentBase + freedPaymentPool` with the pool value from before the
update. -/
def scrapesMonth (extraPaymentBase : ℚ) (month : Nat) (states : List LoanState)
    (freedPaymentPool : ℚ) : List LoanState × MonthlyPaymentPlan × ℚ :=
  let results := states.map (scrapesLoanStep month)
  let s1 := results.map (fun r => r.1)
  let recs := results.filterMap (fun r => r.2.1)
  let newFreed1 := (results.map (fun r => r.2.2)).sum
  let active := (states.filter (fun l => !l.isPaidOff)).length
  let plan0 : MonthlyPaymentPlan :=
    { month := month, payments := recs,
      totalPayment := (recs.map DebtPaymentPlan.totalPayment).sum,
      totalInterest := (recs.map DebtPaymentPlan.monthlyInterest).sum,
      totalPrincipal := (recs.map DebtPaymentPlan.principalPayment).sum,
      remainingDebts := active,
      extraPaymentPool := extraPaymentBase + freedPaymentPool,
      totalFreedPayments := freedPaymentPool, activeLoanCount := active }
  let totalExtraPayment := extraPaymentBase + freedPaymentPool
  let afterPhase2 :
      List LoanState × MonthlyPaymentPlan × ℚ :=
    if 0 < totalExtraPayment then
      match selectTargetIdx scrapesCmp
          (fun l => !l.isPaidOff && decide (1/100 < l.currentBalance)) s1 with
      | some (i, t) => scrapesApplyExtra totalExtraPayment i t s1 plan0 newFreed1
      | none => (s1, plan0, newFreed1)
    else (s1, plan0, newFreed1)
  let newFreed := afterPhase2.2.2
  (afterPhase2.1,
    { afterPhase2.2.1 with totalFreedPayments := newFreed },
    freedPaymentPool + newFreed)

/-- The scrapes `while` loop (`debtOptimizer.ts` line 537):
`while (loanStates.some(loan => !loan.isPaidOff && loan.currentBalance > 0.01)
&& month <= 600)`.  Each emitted entry pairs the month's plan with the pool
value after that month's update. -/
def scrapesLoop (extraPaymentBase : ℚ) :
    Nat → Nat → List LoanState → ℚ → List (MonthlyPaymentPlan × ℚ)
  | 0, _, _, _ => []
  | fuel + 1, month, states, pool =>
    if states.any (fun l => !l.isPaidOff && decide (1/100 < l.currentBalance)) then
      let step := scrapesMonth extraPaymentBase month states pool
      (step.2.1, step.2.2) ::
        scrapesLoop extraPaymentBase fuel (month + 1) step.1 step.2.2
    else []

/-! ## Per-debt analysis and the optimizer -/

/-- First index of a list satisfying a predicate (model of
`Array.prototype.findIndex`, as a total `Option`). -/
def findFirstIdx (p : α → Bool) : List α → Option Nat
  | [] => none
  | x :: xs => if p x then some 0 else (findFirstIdx p xs).map (· + 1)

/-- `month.payments.find(p => p.loanId === loan.id && p.isPaidOff)` viewed as
a boolean (the JS code tests the found record for truthiness). -/
def hasPaidEntry (loanId : Nat) (m : MonthlyPaymentPlan) : Bool :=
  (m.payments.find? (fun p => p.loanId = loanId && p.isPaidOff)).isSome

/-- The per-loan record built by `calculatePerDebtDetails` (`debtOptimizer.ts`
lines 682-721).  `payoffMonth` is `findIndex(...) + 1`; a JS `0` (not found)
falls through `payoffMonth || baselineMonths` to the length of the loan's own
zero-extra amortization schedule. -/
def perDebtDetailFor (schedule : List MonthlyPaymentPlan) (loan : Loan) : PerDebtDetail :=
  let payoffIdx : Option Nat := findFirstIdx (hasPaidEntry loan.id) schedule
  let payoffMonth0 : Nat :=
    match payoffIdx with
    | some i => i + 1
    | none => 0
  let loanTotalInterest :=
    (schedule.map (fun m =>
      match m.payments.find? (fun p => p.loanId = loan.id) with
      | some p => p.monthlyInterest
      | none => 0)).sum
  let baselineSchedule := generateAmortizationSchedule loan 0 0
  let baselineTotalInterest := (baselineSchedule.map PaymentScheduleItem.interest).sum
  let baselineMonths := baselineSchedule.length
  { loanId := loan.id, totalInterest := loanTotalInterest,
    interestSaved := baselineTotalInterest - loanTotalInterest,
    monthsSaved :=
      baselineMonths - (if payoffMonth0 = 0 then baselineMonths else payoffMonth0),
    payoffMonth := if payoffMonth0 = 0 then baselineMonths else payoffMonth0 }

/-- `calculatePerDebtDetails(loans, schedule)` (`debtOptimizer.ts` lines
681-722): one record per loan, in input order. -/
def calculatePerDebtDetails (loans : List Loan) (schedule : List MonthlyPaymentPlan) :
    List PerDebtDetail :=
  loans.map (perDebtDetailFor schedule)

/-- `calculateAvalancheFixedStrategy(loans, extraPaymentBase, lumpSum)`
(`debtOptimizer.ts` lines 146-295).  The source's running `totalInterest`
accumulator adds, each month, exactly the interests summed into that month's
`plan.totalInterest`, so it equals the sum below. -/
def calculateAvalancheFixedStrategy (loans : List Loan) (extraPaymentBase : ℚ)
    (lumpSum : ℚ) : DebtOptimizationStrategy :=
  let schedule := fixedStrategyLoop avalancheLoanStep avalancheCmp extraPaymentBase
    600 1 (loans.map (lumpAdjustedState loans lumpSum))
  { kind := StrategyKind.avalancheFixed,
    totalInterest := (schedule.map MonthlyPaymentPlan.totalInterest).sum,
    interestSaved := 0, monthsSaved := 0, monthlySchedule := schedule,
    perDebtDetails := calculatePerDebtDetails loans schedule }

/-- `calculateSnowballFixedStrategy(loans, extraPaymentBase, lumpSum)`
(`debtOptimizer.ts` lines 298-457). -/
def calculateSnowballFixedStrategy (loans : List Loan) (extraPaymentBase : ℚ)
    (lumpSum : ℚ) : DebtOptimizationStrategy :=
  let schedule := fixedStrategyLoop snowballLoanStep snowballFixedCmp extraPaymentBase
    600 1 (loans.map (lumpAdjustedState loans lumpSum))
  { kind := StrategyKind.snowballFixed,
    totalInterest := (schedule.map MonthlyPaymentPlan.totalInterest).sum,
    interestSaved := 0, monthsSaved := 0, monthlySchedule := schedule,
    perDebtDetails := calculatePerDebtDetails loans schedule }

/-- `calculateSnowballScrapesStrategy(loans, extraPaymentBase, lumpSum)`
(`debtOptimizer.ts` lines 460-678). -/
def calculateSnowballScrapesStrategy (loans : List Loan) (extraPaymentBase : ℚ)
    (lumpSum : ℚ) : DebtOptimizationStrategy :=
  let init := scrapesInit loans lumpSum
  let run := scrapesLoop extraPaymentBase 600 1 init.1 init.2
  let schedule := run.map Prod.fst
  { kind := StrategyKind.snowballScrapes,
    totalInterest := (schedule.map MonthlyPaymentPlan.totalInterest).sum,
    interestSaved := 0, monthsSaved := 0, monthlySchedule := schedule,
    perDebtDetails := calculatePerDebtDetails loans schedule }

/-- The freed payment a loan contributes in a month, read off the before and
after states: its original minimum payment exactly when it flipped from
active to paid off during the month (in either phase). -/
def freedContrib (pre post : LoanState) : ℚ :=
  if pre.isPaidOff = false ∧ post.isPaidOff = true then pre.originalMonthlyPayment else 0

/-- The freed-payment pool values of a scrapes run: the initial pool followed
by the pool after each simulated month. -/
def scrapesPoolTrace (loans : List Loan) (extraPaymentBase : ℚ) (lumpSum : ℚ) :
    List ℚ :=
  let init := scrapesInit loans lumpSum
  init.2 :: (scrapesLoop extraPaymentBase 600 1 init.1 init.2).map Prod.snd

/-- Final result of `optimizeDebtPayoff` (strings, dates and the unused
`userPriorities` dropped). -/
structure OptimizationResult where
  strategies : List DebtOptimizationStrategy
  recommendedStrategy : DebtOptimizationStrategy
  baselineSchedule : List MonthlyPaymentPlan
deriving DecidableEq, Repr

/-- Re-score a strategy against the baseline (`debtOptimizer.ts` lines
754-769): `interestSaved = baselineTotalInterest - strategy.totalInterest`,
`monthsSaved = max(0, baselineMonths - strategyMonths)` (`Nat` subtraction). -/
def scoreStrategy (baselineTotalInterest : ℚ) (baselineMonths : Nat)
    (s : DebtOptimizationStrategy) : DebtOptimizationStrategy :=
  { s with
    interestSaved := baselineTotalInterest - s.totalInterest
    monthsSaved := baselineMonths - s.monthlySchedule.length }

/-- The `reduce` body selecting the recommended strategy (`debtOptimizer.ts`
lines 777-782). -/
def chooseBest (best current : DebtOptimizationStrategy) : DebtOptimizationStrategy :=
  if 1000 < |current.interestSaved - best.interestSaved| then
    if best.interestSaved < current.interestSaved then current else best
  else if best.monthsSaved < current.monthsSaved then current else best

/-- `optimizeDebtPayoff(loans, extraPaymentBase, lumpSum)` (`debtOptimizer.ts`
lines 725-798). -/
def optimizeDebtPayoff (loans : List Loan) (extraPaymentBase : ℚ) (lumpSum : ℚ) :
    OptimizationResult :=
  let baselineSchedule := calculateBaselineSchedule loans
  let baselineTotalInterest := (baselineSchedule.map MonthlyPaymentPlan.totalInterest).sum
  let baselineMonths := baselineSchedule.length
  let scored := [calculateAvalancheFixedStrategy loans extraPaymentBase lumpSum,
    calculateSnowballFixedStrategy loans extraPaymentBase lumpSum,
    calculateSnowballScrapesStrategy loans extraPaymentBase lumpSum].map
    (scoreStrategy baselineTotalInterest baselineMonths)
  let recommended :=
    match scored with
    | [] => scoreStrategy baselineTotalInterest baselineMonths
        (calculateAvalancheFixedStrategy loans extraPaymentBase lumpSum)
    | s :: rest => rest.foldl chooseBest s
  { strategies := scored, recommendedStrategy := recommended,
    baselineSchedule := baselineSchedule }

/-! ## Verification-support definitions

These definitions are not part of the source program: they name the coupling
relations and the common phase-1 balance update used to compare a strategy
run against the baseline run in the dominance proof for claim C1. -/

/-- The post-payment balance every engine computes for a processed loan when
the minimum payment covers the interest (so no lower clamp fires): pay
`min(payment − interest, balance)` of principal, then zero out balances within
the 0.01 tolerance. -/
def domStepBal (bal r pay : ℚ) : ℚ :=
  if bal - min (pay - bal * (r / 100 / 12)) bal ≤ 1/100 then 0
  else bal - min (pay - bal * (r / 100 / 12)) bal

/-- The paid-off flag matching `domStepBal`. -/
def domStepPaid (bal r pay : ℚ) : Bool :=
  decide (bal - min (pay - bal * (r / 100 / 12)) bal ≤ 1/100)

/-- Coupling relation between a baseline loan state `b` and the corresponding
strategy loan state `s` (same loan, same position in the state list). -/
def DomRel (b s : LoanState) : Prop :=
  s.interestRate = b.interestRate ∧
  s.currentMinimumPayment = b.currentMinimumPayment ∧
  0 ≤ b.interestRate ∧
  0 ≤ s.currentBalance ∧
  s.currentBalance ≤ b.currentBalance ∧
  b.currentBalance * (b.interestRate / 100 / 12) ≤ b.currentMinimumPayment ∧
  (b.isPaidOff = true → s.isPaidOff = true) ∧
  (b.isPaidOff = true → b.currentBalance = 0) ∧
  (s.isPaidOff = true → s.currentBalance = 0) ∧
  (b.currentBalance = 0 ∨ 1/100 < b.currentBalance)

/-- `DomRel` strengthened with the scrapes-engine invariant that an active
loan's balance exceeds the 0.01 tolerance. -/
def ScrRel (b s : LoanState) : Prop :=
  DomRel b s ∧ (s.isPaidOff = false → 1/100 < s.currentBalance)

/-- The state update applied to the phase-2 target loan. -/
def extraApplied (e : ℚ) (t : LoanState) : LoanState :=
  { t with
    currentBalance := if t.currentBalance - min e t.currentBalance ≤ 1/100 then 0
      else t.currentBalance - min e t.currentBalance,
    isPaidOff := decide (t.currentBalance - min e t.currentBalance ≤ 1/100) }

/-- The baseline-side part of `DomRel`, used to show the baseline accrues
non-negative interest. -/
def BSide (b : LoanState) : Prop :=
  0 ≤ b.interestRate ∧
  0 ≤ b.currentBalance ∧
  b.currentBalance * (b.interestRate / 100 / 12) ≤ b.currentMinimumPayment ∧
  (b.isPaidOff = true → b.currentBalance = 0) ∧
  (b.currentBalance = 0 ∨ 1/100 < b.currentBalance)

/-! ## Iteration bounds (claim C3) -/

theorem amortLoop_length_le (loan : Loan) (e : ℚ) :
    ∀ fuel month bal cI cP, (amortLoop loan e fuel month bal cI cP).length ≤ fuel := by
  intro fuel
  induction fuel with
  | zero => intro month bal cI cP; simp [amortLoop]
  | succ n ih =>
    intro month bal cI cP
    rw [amortLoop]
    split
    · simp only [List.length_cons]
      split
      · simp
      · exact Nat.add_le_add_right (ih _ _ _ _) 1
    · simp

theorem baselineLoop_length_le :
    ∀ fuel month states, (baselineLoop fuel month states).length ≤ fuel := by
  intro fuel
  induction fuel with
  | zero => intro month states; simp [baselineLoop]
  | succ n ih =>
    intro month states
    rw [baselineLoop]
    split
    · simpa using Nat.succ_le_succ (ih _ _)
    · simp

theorem fixedStrategyLoop_length_le (step : Nat → LoanState → LoanState × Option DebtPaymentPlan)
    (cmp : LoanState → LoanState → ℚ) (e : ℚ) :
    ∀ fuel month states, (fixedStrategyLoop step cmp e fuel month states).length ≤ fuel := by
  intro fuel
  induction fuel with
  | zero => intro month states; simp [fixedStrategyLoop]
  | succ n ih =>
    intro month states
    rw [fixedStrategyLoop]
    split
    · simpa using Nat.succ_le_succ (ih _ _)
    · simp

theorem scrapesLoop_length_le (e : ℚ) :
    ∀ fuel month states pool, (scrapesLoop e fuel month states pool).length ≤ fuel := by
  intro fuel
  induction fuel with
  | zero => intro month states pool; simp [scrapesLoop]
  | succ n ih =>
    intro month states pool
    rw [scrapesLoop]
    split
    · simpa using Nat.succ_le_succ (ih _ _ _)
    · simp

/-- C3.  Every simulation loop is bounded by its hard iteration ceiling: a
single-loan amortization schedule never exceeds `termMonths * 3` rows, and the
baseline and all three strategy engines never emit more than 600 monthly
plans, for arbitrary (including adversarial) inputs. -/
theorem c3_iteration_ceilings :
    (∀ (loan : Loan) (extraPayment lumpSum : ℚ),
      (generateAmortizationSchedule loan extraPayment lumpSum).length ≤ loan.termMonths * 3) ∧
    (∀ loans : List Loan, (calculateBaselineSchedule loans).length ≤ 600) ∧
    (∀ (loans : List Loan) (e l : ℚ),
      (calculateAvalancheFixedStrategy loans e l).monthlySchedule.length ≤ 600) ∧
    (∀ (loans : List Loan) (e l : ℚ),
      (calculateSnowballFixedStrategy loans e l).monthlySchedule.length ≤ 600) ∧
    (∀ (loans : List Loan) (e l : ℚ),
      (calculateSnowballScrapesStrategy loans e l).monthlySchedule.length ≤ 600) := by
  refine ⟨?_, ?_, ?_, ?_, ?_⟩
  · intro loan e l
    exact amortLoop_length_le loan e _ _ _ _ _
  · intro loans
    exact baselineLoop_length_le _ _ _
  · intro loans e l
    exact fixedStrategyLoop_length_le _ _ _ _ _ _
  · intro loans e l
    exact fixedStrategyLoop_length_le _ _ _ _ _ _
  · intro loans e l
    simpa [calculateSnowballScrapesStrategy] using scrapesLoop_length_le e 600 1 _ _

/-! ## Optimizer selection (claim C7) -/

/-- C7.  The recommended strategy is chosen by a left fold with `chooseBest`
starting from the first strategy, over the three strategies re-scored against
the baseline; and `chooseBest` replaces the current best exactly when the
candidate beats it by more than the 1000-unit interest threshold, or is
within the threshold and saves strictly more months. -/
theorem c7_recommended_strategy_rule :
    (∀ best current : DebtOptimizationStrategy,
      chooseBest best current =
        if (1000 < |current.interestSaved - best.interestSaved| ∧
              best.interestSaved < current.interestSaved) ∨
            (|current.interestSaved - best.interestSaved| ≤ 1000 ∧
              best.monthsSaved < current.monthsSaved)
          then current else best) ∧
    (∀ (baselineTotalInterest : ℚ) (baselineMonths : Nat) (s : DebtOptimizationStrategy),
      (scoreStrategy baselineTotalInterest baselineMonths s).interestSaved =
          baselineTotalInterest - s.totalInterest ∧
        (scoreStrategy baselineTotalInterest baselineMonths s).monthsSaved =
          baselineMonths - s.monthlySchedule.length) ∧
    (∀ (loans : List Loan) (e l : ℚ),
      (optimizeDebtPayoff loans e l).recommendedStrategy =
        chooseBest
          (chooseBest
            (scoreStrategy ((calculateBaselineSchedule loans).map MonthlyPaymentPlan.totalInterest).sum
              (calculateBaselineSchedule loans).length (calculateAvalancheFixedStrategy loans e l))
            (scoreStrategy ((calculateBaselineSchedule loans).map MonthlyPaymentPlan.totalInterest).sum
              (calculateBaselineSchedule loans).length (calculateSnowballFixedStrategy loans e l)))
          (scoreStrategy ((calculateBaselineSchedule loans).map MonthlyPaymentPlan.totalInterest).sum
            (calculateBaselineSchedule loans).length (calculateSnowballScrapesStrategy loans e l))) := by
  refine ⟨?_, ?_, ?_⟩
  · intro b c
    by_cases hd : 1000 < |c.interestSaved - b.interestSaved|
    · by_cases hi : b.interestSaved < c.interestSaved
      · rw [chooseBest, if_pos hd, if_pos hi, if_pos (Or.inl ⟨hd, hi⟩)]
      · rw [chooseBest, if_pos hd, if_neg hi, if_neg ?_]
        rintro (⟨-, h⟩ | ⟨h, -⟩)
        · exact hi h
        · exact absurd hd (not_lt.mpr h)
    · by_cases hm : b.monthsSaved < c.monthsSaved
      · rw [chooseBest, if_neg hd, if_pos hm, if_pos (Or.inr ⟨not_lt.mp hd, hm⟩)]
      · rw [chooseBest, if_neg hd, if_neg hm, if_neg ?_]
        rintro (⟨h, -⟩ | ⟨-, h⟩)
        · exact hd h
        · exact hm h
  · intro bTI bM s
    exact ⟨rfl, rfl⟩
  · intro loans e l
    rfl

/-! ## Empty loan list (claim C10) -/

theorem chooseBest_eq_or (b c : DebtOptimizationStrategy) :
    chooseBest b c = b ∨ chooseBest b c = c := by
  rw [chooseBest]
  split
  · split
    · exact Or.inr rfl
    · exact Or.inl rfl
  · split
    · exact Or.inr rfl
    · exact Or.inl rfl

theorem chooseBest_fold_mem (a b c : DebtOptimizationStrategy) :
    chooseBest (chooseBest a b) c ∈ [a, b, c] := by
  rcases chooseBest_eq_or (chooseBest a b) c with h2 | h2
  · rcases chooseBest_eq_or a b with h1 | h1 <;> rw [h2, h1] <;> simp
  · rw [h2]; simp

/-- C10.  On the empty loan list every schedule is empty and the optimizer
still returns a fully-formed result (the lump-sum distribution maps over an
empty list, so the division by the zero total balance is never taken): three
scored strategies, a recommendation drawn from them, and the empty baseline. -/
theorem c10_empty_loan_list :
    ∀ e l : ℚ,
      calculateBaselineSchedule [] = [] ∧
      (calculateAvalancheFixedStrategy [] e l).monthlySchedule = [] ∧
      (calculateSnowballFixedStrategy [] e l).monthlySchedule = [] ∧
      (calculateSnowballScrapesStrategy [] e l).monthlySchedule = [] ∧
      (optimizeDebtPayoff [] e l).baselineSchedule = [] ∧
      (optimizeDebtPayoff [] e l).strategies.length = 3 ∧
      (∀ s ∈ (optimizeDebtPayoff [] e l).strategies, s.monthlySchedule = []) ∧
      (optimizeDebtPayoff [] e l).recommendedStrategy ∈ (optimizeDebtPayoff [] e l).strategies := by
  intro e l
  have hbase : calculateBaselineSchedule [] = [] := by
    simp [calculateBaselineSchedule, baselineLoop]
  have hav : (calculateAvalancheFixedStrategy [] e l).monthlySchedule = [] := by
    simp [calculateAvalancheFixedStrategy, fixedStrategyLoop]
  have hsn : (calculateSnowballFixedStrategy [] e l).monthlySchedule = [] := by
    simp [calculateSnowballFixedStrategy, fixedStrategyLoop]
  have hsc : (calculateSnowballScrapesStrategy [] e l).monthlySchedule = [] := by
    simp [calculateSnowballScrapesStrategy, scrapesLoop, scrapesInit, scrapesLumpBalances,
      scrapesLumpGo, sortCmp]
  refine ⟨hbase, hav, hsn, hsc, ?_, ?_, ?_, ?_⟩
  · simp [optimizeDebtPayoff, hbase]
  · simp [optimizeDebtPayoff]
  · intro s hs
    simp only [optimizeDebtPayoff, List.map_cons, List.map_nil, List.mem_cons,
      List.not_mem_nil, or_false] at hs
    rcases hs with h | h | h <;> subst h <;>
      simp [scoreStrategy, hav, hsn, hsc]
  · exact chooseBest_fold_mem _ _ _

/-! ## Snowball-fixed target selection (claim C2)

The source's comparator tests `|a.interestRate - b.interestRate| < 0.01` and
only compares balances when the rates differ by at least 0.01, so two
equal-rate loans are never ordered by balance: a stable sort keeps them in
input order and the surplus goes to the first loan, not the
smallest-balance one.  The comments in the source ("Smallest balance first",
"Fixed extra payment goes to smallest balance debt") document the intended —
and claimed — behaviour. -/

/-- C2.  Failing input: two active loans with equal interest rate 5, balances
100 (id 1, first) and 50 (id 2).  With surplus 20, the snowball-fixed engine
selects the index-0 loan with balance 100 and applies the whole extra payment
to it, while loan 2 holds the strictly smallest balance and an equal rate. -/
theorem c2_snowball_fixed_targets_first_not_smallest :
    selectTargetIdx snowballFixedCmp (fun l => !l.isPaidOff)
        [⟨1, 100, 5, 10, 10, false⟩, ⟨2, 50, 5, 10, 10, false⟩] =
      some (0, ⟨1, 100, 5, 10, 10, false⟩) ∧
    (fixedStrategyMonth snowballLoanStep snowballFixedCmp 20 1
        [⟨1, 100, 5, 10, 10, false⟩, ⟨2, 50, 5, 10, 10, false⟩]).2.payments.map
      (fun p => (p.loanId, p.extraPayment)) = [(1, 20), (2, 0)] ∧
    ((50 : ℚ) < 100 ∧
      (⟨1, 100, 5, 10, 10, false⟩ : LoanState).interestRate =
        (⟨2, 50, 5, 10, 10, false⟩ : LoanState).interestRate) := by
  refine ⟨?_, ?_, ?_, rfl⟩
  · with_unfolding_all decide
  · with_unfolding_all decide
  · norm_num

/-! ## Phase-1 negative-principal handling (claim C6)

Snowball-fixed and scrapes clamp a negative phase-1 principal to
`min(balance, 50)`; the avalanche engine applies
`min(minimumPayment - interest, balance)` unclamped, so its phase-1
principal is negative whenever the payment does not cover the interest
(and the balance is non-negative). -/

/-- C6 counterexample: an active loan with balance 100, rate 1200%/yr
(interest 100/month) and minimum payment 0.  The claim says every strategy
clamps the phase-1 principal to `min(100, 50) = 50`; the avalanche engine
instead records principal −100 and grows the balance to 200. -/
theorem c6_avalanche_has_no_principal_floor :
    (avalancheLoanStep 1 ⟨1, 100, 1200, 0, 0, false⟩).2.map
        DebtPaymentPlan.principalPayment = some (-100) ∧
    (avalancheLoanStep 1 ⟨1, 100, 1200, 0, 0, false⟩).1.currentBalance = 200 ∧
    ((-100 : ℚ) ≠ min 100 50) := by
  refine ⟨?_, ?_, by norm_num⟩
  · with_unfolding_all decide
  · with_unfolding_all decide

/-- C6 (amended).  When the minimum payment does not cover the month's
interest, the snowball-fixed and scrapes phase-1 steps clamp the principal to
`min(balance, 50)`; the avalanche step applies the unclamped
`min(minimumPayment - interest, balance)`, which is negative whenever the
balance is non-negative. -/
theorem c6_phase1_negative_principal_clamp (m : Nat) (ls : LoanState)
    (hpaid : ls.isPaidOff = false)
    (hneg : ls.currentMinimumPayment - monthlyInterestOf ls < 0) :
    ((snowballLoanStep m ls).2.map DebtPaymentPlan.principalPayment =
        some (min ls.currentBalance 50)) ∧
    (1/100 < ls.currentBalance →
      (scrapesLoanStep m ls).2.1.map DebtPaymentPlan.principalPayment =
        some (min ls.currentBalance 50)) ∧
    ((avalancheLoanStep m ls).2.map DebtPaymentPlan.principalPayment =
        some (min (ls.currentMinimumPayment - monthlyInterestOf ls) ls.currentBalance)) ∧
    (0 ≤ ls.currentBalance →
      min (ls.currentMinimumPayment - monthlyInterestOf ls) ls.currentBalance < 0) := by
  have hmin : min (ls.currentMinimumPayment - monthlyInterestOf ls) ls.currentBalance < 0 ∨
      ¬ (0 ≤ ls.currentBalance) := by
    rcases le_or_lt 0 ls.currentBalance with h0 | h0
    · exact Or.inl (lt_of_le_of_lt (min_le_left _ _) hneg)
    · exact Or.inr (not_le.mpr h0)
  refine ⟨?_, ?_, ?_, ?_⟩
  · have hlt : min (ls.currentMinimumPayment - monthlyInterestOf ls) ls.currentBalance < 0 :=
      lt_of_le_of_lt (min_le_left _ _) hneg
    simp [snowballLoanStep, hpaid, hlt]
  · intro hbal
    have hlt : min (ls.currentMinimumPayment - monthlyInterestOf ls) ls.currentBalance < 0 :=
      lt_of_le_of_lt (min_le_left _ _) hneg
    have hbal2 : (100 : ℚ)⁻¹ < ls.currentBalance := by simpa using hbal
    simp [scrapesLoanStep, hpaid, hbal2, hlt]
  · simp [avalancheLoanStep, hpaid]
  · intro h0
    exact lt_of_le_of_lt (min_le_left _ _) hneg

/-! ## Amortization balance monotonicity (claim C4) -/

theorem amortLoop_remainingBalance_nonneg (loan : Loan) (e : ℚ) :
    ∀ fuel month bal cI cP, ∀ it ∈ amortLoop loan e fuel month bal cI cP,
      0 ≤ it.remainingBalance := by
  intro fuel
  induction fuel with
  | zero => intro month bal cI cP it hit; simp [amortLoop] at hit
  | succ n ih =>
    intro month bal cI cP it hit
    rw [amortLoop] at hit
    split at hit
    · simp only [List.mem_cons] at hit
      rcases hit with h | h
      · subst h; exact le_max_left 0 _
      · split at h
        · simp at h
        · exact ih _ _ _ _ _ h
    · simp at hit

theorem amortLoop_chain (loan : Loan) (e : ℚ) (hr : 0 ≤ loan.interestRate) (he : 0 ≤ e) :
    ∀ fuel month bal cI cP,
      bal * (loan.interestRate / 100 / 12) ≤ loan.monthlyPayment →
      List.Chain (fun a b : ℚ => b ≤ a) bal
        ((amortLoop loan e fuel month bal cI cP).map PaymentScheduleItem.remainingBalance) := by
  have hr12 : 0 ≤ loan.interestRate / 100 / 12 := by positivity
  intro fuel
  induction fuel with
  | zero => intro month bal cI cP hpay; simp [amortLoop]
  | succ n ih =>
    intro month bal cI cP hpay
    rw [amortLoop]
    split
    · rename_i hgt
      have hbal0 : (0 : ℚ) ≤ bal := le_trans (by norm_num) (le_of_lt hgt)
      have hint : bal * (loan.interestRate / 100 / 12) ≤ loan.monthlyPayment := hpay
      have hp0 : 0 ≤ loan.monthlyPayment - bal * (loan.interestRate / 100 / 12) + e := by
        linarith
      have hples : min (loan.monthlyPayment - bal * (loan.interestRate / 100 / 12) + e) bal ≤ bal :=
        min_le_right _ _
      have hpge : 0 ≤ min (loan.monthlyPayment - bal * (loan.interestRate / 100 / 12) + e) bal :=
        le_min hp0 hbal0
      have hrb0 : 0 ≤ bal - min (loan.monthlyPayment - bal * (loan.interestRate / 100 / 12) + e) bal := by
        linarith
      have hrble : bal - min (loan.monthlyPayment - bal * (loan.interestRate / 100 / 12) + e) bal ≤ bal := by
        linarith
      have hmaxeq : max 0 (bal - min (loan.monthlyPayment - bal * (loan.interestRate / 100 / 12) + e) bal)
          = bal - min (loan.monthlyPayment - bal * (loan.interestRate / 100 / 12) + e) bal :=
        max_eq_right hrb0
      simp only [List.map_cons]
      split
      · exact List.Chain.cons (by rw [hmaxeq]; exact hrble) (by simp)
      · rename_i hrbpos
        refine List.Chain.cons (by rw [hmaxeq]; exact hrble) ?_
        rw [hmaxeq]
        refine ih _ _ _ _ ?_
        calc (bal - min (loan.monthlyPayment - bal * (loan.interestRate / 100 / 12) + e) bal) *
              (loan.interestRate / 100 / 12)
            ≤ bal * (loan.interestRate / 100 / 12) := by
              exact mul_le_mul_of_nonneg_right hrble hr12
          _ ≤ loan.monthlyPayment := hpay
    · simp

/-- Step equation for the C4 counterexample loan (balance 100, rate 1200%/yr,
payment 0): each processed month pays principal `-bal` and doubles the
balance. -/
theorem c4aux_amort_step (fuel m : Nat) (bal cumI cumP : ℚ) (hb : 1/100 < bal) :
    amortLoop ⟨1, 100, 1200, 0, 0, 2⟩ 0 (fuel + 1) m bal cumI cumP =
      { month := m, monthlyPayment := 0, principal := -bal, interest := bal,
        fees := 0, extraPayment := 0, remainingBalance := 2 * bal,
        cumulativeInterest := cumI + bal, cumulativePrincipal := cumP + -bal } ::
        amortLoop ⟨1, 100, 1200, 0, 0, 2⟩ 0 fuel (m + 1) (2 * bal) (cumI + bal)
          (cumP + -bal) := by
  have hint : bal * ((1200:ℚ) / 100 / 12) = bal := by norm_num
  have hmin : min ((0:ℚ) - bal + 0) bal = -bal := by
    rw [min_eq_left (by linarith)]
    ring
  have hrb : bal - -bal = 2 * bal := by ring
  rw [amortLoop, if_pos hb]
  simp only [hint, hmin, hrb]
  rw [max_eq_right (by linarith : (0:ℚ) ≤ 2 * bal), if_neg (by linarith : ¬(2 * bal ≤ 0))]

/-- Closed form of the C4 counterexample run: the remaining balances double
every month for as long as the fuel lasts. -/
theorem c4aux_amort_double : ∀ (fuel m : Nat) (bal cumI cumP : ℚ), 1/100 < bal →
    (amortLoop ⟨1, 100, 1200, 0, 0, 2⟩ 0 fuel m bal cumI cumP).map
        PaymentScheduleItem.remainingBalance =
      (List.range fuel).map (fun i => 2 ^ (i + 1) * bal) := by
  intro fuel
  induction fuel with
  | zero =>
    intro m bal cumI cumP _
    simp [amortLoop]
  | succ n ih =>
    intro m bal cumI cumP hb
    rw [c4aux_amort_step n m bal cumI cumP hb, List.map_cons,
      ih (m + 1) (2 * bal) (cumI + bal) (cumP + -bal) (by linarith),
      List.range_succ_eq_map, List.map_cons, List.map_map]
    have htail : List.map (fun i => 2 ^ (i + 1) * (2 * bal)) (List.range n) =
        List.map ((fun i => 2 ^ (i + 1) * bal) ∘ Nat.succ) (List.range n) := by
      apply List.map_congr_left
      intro i hi
      show 2 ^ (i + 1) * (2 * bal) = 2 ^ (i + 1 + 1) * bal
      ring
    rw [htail]
    simp only [List.cons.injEq]
    exact ⟨by norm_num, trivial⟩

/-- C4 counterexample: loan with balance 100, rate 1200%/yr, payment 0, term
2 months.  The schedule's remaining balances are strictly increasing
(doubling), violating the claimed non-increasing property already from the
initial balance to month 1 (they are, however, never negative). -/
theorem c4_balance_increases_under_negative_amortization :
    ((generateAmortizationSchedule ⟨1, 100, 1200, 0, 0, 2⟩ 0 0).map
        PaymentScheduleItem.remainingBalance) = [200, 400, 800, 1600, 3200, 6400] ∧
    ¬ List.Chain (fun a b : ℚ => b ≤ a)
        ((⟨1, 100, 1200, 0, 0, 2⟩ : Loan).currentBalance - 0)
        ((generateAmortizationSchedule ⟨1, 100, 1200, 0, 0, 2⟩ 0 0).map
          PaymentScheduleItem.remainingBalance) := by
  have hmap : ((generateAmortizationSchedule ⟨1, 100, 1200, 0, 0, 2⟩ 0 0).map
      PaymentScheduleItem.remainingBalance) = [200, 400, 800, 1600, 3200, 6400] := by
    have h1 : generateAmortizationSchedule ⟨1, 100, 1200, 0, 0, 2⟩ 0 0 =
        amortLoop ⟨1, 100, 1200, 0, 0, 2⟩ 0 6 1 ((100:ℚ) - 0) 0 0 := rfl
    rw [h1, show (100:ℚ) - 0 = 100 by norm_num,
      c4aux_amort_double 6 1 100 0 0 (by norm_num)]
    norm_num [List.range_succ]
  refine ⟨hmap, ?_⟩
  rw [hmap]
  intro h
  cases h with
  | cons h1 h2 => norm_num at h1

/-- C4 (amended).  `remainingBalance` is never negative in any generated
schedule; and whenever the interest rate and extra payment are non-negative
and the monthly payment covers the first month's interest on the post-lump
starting balance, the remaining balances are non-increasing, from the
starting balance `currentBalance - lumpSum` through every consecutive pair of
months. -/
theorem c4_balance_monotonicity (loan : Loan) (extraPayment lumpSum : ℚ) :
    (∀ it ∈ generateAmortizationSchedule loan extraPayment lumpSum,
      0 ≤ it.remainingBalance) ∧
    (0 ≤ loan.interestRate → 0 ≤ extraPayment →
      (loan.currentBalance - lumpSum) * (loan.interestRate / 100 / 12) ≤ loan.monthlyPayment →
      List.Chain (fun a b : ℚ => b ≤ a) (loan.currentBalance - lumpSum)
        ((generateAmortizationSchedule loan extraPayment lumpSum).map
          PaymentScheduleItem.remainingBalance)) := by
  constructor
  · intro it hit
    exact amortLoop_remainingBalance_nonneg loan extraPayment _ _ _ _ _ it hit
  · intro hr he hpay
    exact amortLoop_chain loan extraPayment hr he _ _ _ _ _ hpay

/-- Witness for `c4_balance_monotonicity`: loan with balance 1200, rate 3,
payment 100 and extra payment 10. -/
theorem c4_balance_monotonicity_witness :
    ((0 : ℚ) ≤ (⟨1, 1200, 3, 100, 0, 12⟩ : Loan).interestRate ∧ (0 : ℚ) ≤ 10 ∧
      ((⟨1, 1200, 3, 100, 0, 12⟩ : Loan).currentBalance - 0) *
          ((⟨1, 1200, 3, 100, 0, 12⟩ : Loan).interestRate / 100 / 12) ≤
        (⟨1, 1200, 3, 100, 0, 12⟩ : Loan).monthlyPayment) ∧
    List.Chain (fun a b : ℚ => b ≤ a) ((⟨1, 1200, 3, 100, 0, 12⟩ : Loan).currentBalance - 0)
      ((generateAmortizationSchedule ⟨1, 1200, 3, 100, 0, 12⟩ 10 0).map
        PaymentScheduleItem.remainingBalance) :=
  ⟨⟨by norm_num, by norm_num, by norm_num⟩,
    (c4_balance_monotonicity ⟨1, 1200, 3, 100, 0, 12⟩ 10 0).2 (by norm_num) (by norm_num)
      (by norm_num)⟩

/-! ## Selection and list helper lemmas -/

theorem mem_insertCmp (cmp : α → α → ℚ) (a x : α) :
    ∀ l : List α, x ∈ insertCmp cmp a l → x = a ∨ x ∈ l := by
  intro l
  induction l with
  | nil => intro h; simpa [insertCmp] using h
  | cons y ys ih =>
    intro h
    rw [insertCmp] at h
    split at h
    · rcases List.mem_cons.mp h with rfl | h2
      · exact Or.inl rfl
      · exact Or.inr h2
    · rcases List.mem_cons.mp h with rfl | h2
      · exact Or.inr (List.mem_cons_self _ _)
      · rcases ih h2 with h3 | h3
        · exact Or.inl h3
        · exact Or.inr (List.mem_cons_of_mem _ h3)

theorem mem_sortCmp (cmp : α → α → ℚ) (x : α) :
    ∀ l : List α, x ∈ sortCmp cmp l → x ∈ l := by
  intro l
  induction l with
  | nil => intro h; simpa [sortCmp] using h
  | cons y ys ih =>
    intro h
    rw [sortCmp] at h
    rcases mem_insertCmp cmp y x _ h with rfl | h2
    · exact List.mem_cons_self _ _
    · exact List.mem_cons_of_mem _ (ih h2)

theorem mem_enumFrom (x : Nat × α) :
    ∀ (l : List α) (n : Nat), x ∈ enumFrom n l → n ≤ x.1 ∧ l.get? (x.1 - n) = some x.2 := by
  intro l
  induction l with
  | nil => intro n h; simp [enumFrom] at h
  | cons a as ih =>
    intro n h
    rw [enumFrom] at h
    rcases List.mem_cons.mp h with rfl | h2
    · simp
    · obtain ⟨h3, h4⟩ := ih (n + 1) h2
      refine ⟨le_trans (Nat.le_succ n) h3, ?_⟩
      have hx : x.1 - n = (x.1 - (n + 1)) + 1 := by omega
      rw [hx]
      simpa using h4

theorem selectTargetIdx_spec (cmp : LoanState → LoanState → ℚ) (pred : LoanState → Bool)
    (states : List LoanState) (i : Nat) (t : LoanState)
    (h : selectTargetIdx cmp pred states = some (i, t)) :
    states.get? i = some t ∧ pred t = true := by
  rw [selectTargetIdx] at h
  have hmem : (i, t) ∈ sortCmp (fun a b => cmp a.2 b.2)
      ((enumFrom 0 states).filter (fun p => pred p.2)) := by
    cases hs : sortCmp (fun a b => cmp a.2 b.2)
        ((enumFrom 0 states).filter (fun p => pred p.2)) with
    | nil => rw [hs] at h; simp at h
    | cons y ys =>
      rw [hs] at h
      simp only [List.head?_cons, Option.some.injEq] at h
      subst h
      exact List.mem_cons_self _ _
  have hmem2 := mem_sortCmp _ _ _ hmem
  have hmem3 := List.mem_filter.mp hmem2
  obtain ⟨-, hget⟩ := mem_enumFrom (i, t) states 0 hmem3.1
  refine ⟨?_, hmem3.2⟩
  simpa using hget

theorem zipWith_sum_set (f : LoanState → LoanState → ℚ) :
    ∀ (l1 l2 : List LoanState) (i : Nat) (a b x : LoanState),
      l1.get? i = some a → l2.get? i = some b →
      (List.zipWith f l1 (l2.set i x)).sum =
        (List.zipWith f l1 l2).sum - f a b + f a x := by
  intro l1
  induction l1 with
  | nil => intro l2 i a b x h1 h2; simp at h1
  | cons c cs ih =>
    intro l2 i a b x h1 h2
    cases l2 with
    | nil => simp at h2
    | cons d ds =>
      cases i with
      | zero =>
        obtain rfl : c = a := by simpa using h1
        obtain rfl : d = b := by simpa using h2
        simp [List.zipWith, List.set]
        ring
      | succ j =>
        have h1s : cs.get? j = some a := by simpa using h1
        have h2s : ds.get? j = some b := by simpa using h2
        simp only [List.set, List.zipWith, List.sum_cons]
        rw [ih ds j a b x h1s h2s]
        ring

/-! ## Freed-payment pool of the scrapes engine (claim C5) -/

theorem scrapesLoanStep_paid_skip (m : Nat) (s : LoanState) (h : s.isPaidOff = true) :
    scrapesLoanStep m s = (s, none, 0) := by
  rw [scrapesLoanStep, if_neg]
  rintro ⟨h1, -⟩
  rw [h] at h1
  simp at h1

theorem scrapesLoanStep_orig (m : Nat) (s : LoanState) :
    (scrapesLoanStep m s).1.originalMonthlyPayment = s.originalMonthlyPayment := by
  rw [scrapesLoanStep]
  split <;> rfl

theorem scrapesLoanStep_freed (m : Nat) (s : LoanState) :
    (scrapesLoanStep m s).2.2 = freedContrib s (scrapesLoanStep m s).1 := by
  rw [scrapesLoanStep]
  split
  · rename_i h
    simp only [freedContrib, h.1, true_and]
  · rename_i h
    by_cases hb : s.isPaidOff = false
    · simp [freedContrib, hb]
    · simp only [freedContrib]
      rw [if_neg]
      rintro ⟨h1, -⟩
      exact hb h1

theorem scrapesPhase1_freed_sum (m : Nat) :
    ∀ states : List LoanState,
      ((states.map (scrapesLoanStep m)).map (fun r => r.2.2)).sum =
        (List.zipWith freedContrib states
          ((states.map (scrapesLoanStep m)).map (fun r => r.1))).sum := by
  intro states
  induction states with
  | nil => simp
  | cons s ss ih =>
    simp only [List.map_cons, List.zipWith_cons_cons, List.sum_cons]
    rw [ih, scrapesLoanStep_freed]

theorem scrapesApplyExtra_zip_freed (tot : ℚ) (i : Nat) (t : LoanState) (m : Nat)
    (states : List LoanState) (plan0 : MonthlyPaymentPlan)
    (hsel : ((states.map (scrapesLoanStep m)).map (fun r => r.1)).get? i = some t)
    (ht : t.isPaidOff = false) :
    (scrapesApplyExtra tot i t ((states.map (scrapesLoanStep m)).map (fun r => r.1)) plan0
        (((states.map (scrapesLoanStep m)).map (fun r => r.2.2)).sum)).2.2 =
      (List.zipWith freedContrib states
        (scrapesApplyExtra tot i t ((states.map (scrapesLoanStep m)).map (fun r => r.1)) plan0
          (((states.map (scrapesLoanStep m)).map (fun r => r.2.2)).sum)).1).sum := by
  have hmapget : ((states.map (scrapesLoanStep m)).map (fun r => r.1)).get? i =
      (states.get? i).map (fun s => (scrapesLoanStep m s).1) := by
    rw [List.get?_map, List.get?_map]
    cases states.get? i <;> rfl
  rw [hmapget] at hsel
  obtain ⟨pre, hst, htdef⟩ : ∃ pre, states.get? i = some pre ∧ t = (scrapesLoanStep m pre).1 := by
    cases hq : states.get? i with
    | none => rw [hq] at hsel; simp at hsel
    | some pre =>
      rw [hq] at hsel
      have h2 : (scrapesLoanStep m pre).1 = t := by simpa using hsel
      exact ⟨pre, rfl, h2.symm⟩
  have hpre : pre.isPaidOff = false := by
    by_contra hc
    have hc2 : pre.isPaidOff = true := by
      cases hcc : pre.isPaidOff
      · exact absurd hcc hc
      · rfl
    rw [scrapesLoanStep_paid_skip m pre hc2] at htdef
    rw [htdef] at ht
    rw [hc2] at ht
    simp at ht
  have horig : t.originalMonthlyPayment = pre.originalMonthlyPayment := by
    rw [htdef, scrapesLoanStep_orig]
  have h0 : freedContrib pre t = 0 := by
    rw [freedContrib, if_neg]
    rintro ⟨-, h⟩
    rw [ht] at h
    simp at h
  have hselOrig : ((states.map (scrapesLoanStep m)).map (fun r => r.1)).get? i = some t := by
    rw [hmapget, hst, htdef]
    rfl
  simp only [scrapesApplyExtra]
  rw [zipWith_sum_set freedContrib states _ i pre t _ hst hselOrig, ← scrapesPhase1_freed_sum,
    h0, horig]
  simp only [freedContrib, hpre, true_and, sub_zero]

/-- C5 part 1 (the recurrence): the pool returned by one month of the scrapes
engine is the incoming pool plus the original minimum payments of exactly the
loans that flipped from active to paid off during that month, in either
phase. -/
theorem scrapesMonth_pool_recurrence (base : ℚ) (m : Nat) (states : List LoanState)
    (pool : ℚ) :
    (scrapesMonth base m states pool).2.2 =
      pool + (List.zipWith freedContrib states (scrapesMonth base m states pool).1).sum := by
  simp only [scrapesMonth]
  by_cases htot : 0 < base + pool
  · simp only [if_pos htot]
    cases hsel : selectTargetIdx scrapesCmp
        (fun l => !l.isPaidOff && decide (1/100 < l.currentBalance))
        ((states.map (scrapesLoanStep m)).map (fun r => r.1)) with
    | none =>
      simp only [hsel]
      rw [← scrapesPhase1_freed_sum]
    | some p =>
      obtain ⟨i, t⟩ := p
      obtain ⟨hget, hpred⟩ := selectTargetIdx_spec _ _ _ _ _ hsel
      have ht : t.isPaidOff = false := by
        rcases Bool.and_eq_true_iff.mp hpred with ⟨h1, -⟩
        cases hcc : t.isPaidOff
        · rfl
        · rw [hcc] at h1; exact absurd h1 (by simp)
      simp only [hsel]
      rw [scrapesApplyExtra_zip_freed (base + pool) i t m states _ hget ht]
  · simp only [if_neg htot]
    rw [← scrapesPhase1_freed_sum]

theorem zipWith_freedContrib_nonneg :
    ∀ l1 l2 : List LoanState, (∀ s ∈ l1, 0 ≤ s.originalMonthlyPayment) →
      0 ≤ (List.zipWith freedContrib l1 l2).sum := by
  intro l1
  induction l1 with
  | nil => intro l2 h; simp
  | cons a as ih =>
    intro l2 h
    cases l2 with
    | nil => simp
    | cons b bs =>
      simp only [List.zipWith_cons_cons, List.sum_cons]
      have h1 : 0 ≤ freedContrib a b := by
        rw [freedContrib]
        split
        · exact h a (List.mem_cons_self _ _)
        · exact le_refl 0
      have h2 := ih bs (fun s hs => h s (List.mem_cons_of_mem _ hs))
      linarith

theorem scrapesMonth_orig_nonneg (base : ℚ) (m : Nat) (states : List LoanState)
    (pool : ℚ) (h : ∀ s ∈ states, 0 ≤ s.originalMonthlyPayment) :
    ∀ s2 ∈ (scrapesMonth base m states pool).1, 0 ≤ s2.originalMonthlyPayment := by
  have hs1 : ∀ x ∈ (states.map (scrapesLoanStep m)).map (fun r => r.1),
      0 ≤ x.originalMonthlyPayment := by
    intro x hx
    rcases List.mem_map.mp hx with ⟨r, hr, rfl⟩
    rcases List.mem_map.mp hr with ⟨s, hs, rfl⟩
    rw [scrapesLoanStep_orig]
    exact h s hs
  intro s2 hs2
  simp only [scrapesMonth] at hs2
  by_cases htot : 0 < base + pool
  · rw [if_pos htot] at hs2
    cases hsel : selectTargetIdx scrapesCmp
        (fun l => !l.isPaidOff && decide (1/100 < l.currentBalance))
        ((states.map (scrapesLoanStep m)).map (fun r => r.1)) with
    | none => rw [hsel] at hs2; exact hs1 s2 hs2
    | some p =>
      obtain ⟨i, t⟩ := p
      obtain ⟨hget, -⟩ := selectTargetIdx_spec _ _ _ _ _ hsel
      rw [hsel] at hs2
      simp only [scrapesApplyExtra] at hs2
      rcases List.mem_or_eq_of_mem_set hs2 with h1 | h1
      · exact hs1 s2 h1
      · subst h1
        exact hs1 t (List.get?_mem hget)
  · rw [if_neg htot] at hs2
    exact hs1 s2 hs2

theorem scrapesMonth_pool_le (base : ℚ) (m : Nat) (states : List LoanState)
    (pool : ℚ) (h : ∀ s ∈ states, 0 ≤ s.originalMonthlyPayment) :
    pool ≤ (scrapesMonth base m states pool).2.2 := by
  rw [scrapesMonth_pool_recurrence]
  have h2 := zipWith_freedContrib_nonneg states (scrapesMonth base m states pool).1 h
  linarith

theorem scrapesLoop_pool_chain (base : ℚ) :
    ∀ (fuel m : Nat) (states : List LoanState) (pool : ℚ),
      (∀ s ∈ states, 0 ≤ s.originalMonthlyPayment) →
      List.Chain (fun a b : ℚ => a ≤ b) pool
        ((scrapesLoop base fuel m states pool).map Prod.snd) := by
  intro fuel
  induction fuel with
  | zero => intro m states pool h; simp [scrapesLoop]
  | succ n ih =>
    intro m states pool h
    rw [scrapesLoop]
    split
    · simp only [List.map_cons]
      exact List.Chain.cons (scrapesMonth_pool_le base m states pool h)
        (ih (m + 1) _ _ (scrapesMonth_orig_nonneg base m states pool h))
    · simp

theorem scrapesLumpGo_mem (sorted loans0 : List Loan) :
    ∀ (rest : List Loan) (rem : ℚ) (p : Loan × ℚ),
      p ∈ scrapesLumpGo sorted loans0 rest rem → p.1 ∈ rest := by
  intro rest
  induction rest with
  | nil => intro rem p h; simp [scrapesLumpGo] at h
  | cons a as ih =>
    intro rem p h
    rw [scrapesLumpGo] at h
    split at h
    · split at h
      · rcases List.mem_cons.mp h with rfl | h2
        · exact List.mem_cons_self _ _
        · exact List.mem_cons_of_mem _ (ih _ _ h2)
      · rcases List.mem_cons.mp h with rfl | h2
        · exact List.mem_cons_self _ _
        · exact List.mem_cons_of_mem _ (ih _ _ h2)
    · rcases List.mem_cons.mp h with rfl | h2
      · exact List.mem_cons_self _ _
      · exact List.mem_cons_of_mem _ (ih _ _ h2)

theorem scrapesInit_orig_nonneg (loans : List Loan) (lump : ℚ)
    (h : ∀ l ∈ loans, 0 ≤ l.monthlyPayment) :
    ∀ s ∈ (scrapesInit loans lump).1, 0 ≤ s.originalMonthlyPayment := by
  intro s hs
  simp only [scrapesInit] at hs
  rcases List.mem_map.mp hs with ⟨p, hp, rfl⟩
  exact h p.1 (scrapesLumpGo_mem _ _ _ _ _ hp)

/-- C5 counterexample: a single loan with balance 60, rate 0 and **negative**
minimum payment −10 (no lump sum, no base extra).  The 50-floor drains the
balance in two months; when the loan pays off, its negative original payment
is added to the pool, which drops from 0 to −10: the pool sequence
`[0, 0, -10]` is not non-decreasing. -/
theorem c5_pool_decreases_with_negative_payment :
    scrapesPoolTrace [⟨1, 60, 0, -10, 0, 12⟩] 0 0 = [0, 0, -10] ∧
    ¬ List.Chain' (fun a b : ℚ => a ≤ b) (scrapesPoolTrace [⟨1, 60, 0, -10, 0, 12⟩] 0 0) := by
  have htr : scrapesPoolTrace [⟨1, 60, 0, -10, 0, 12⟩] 0 0 = [0, 0, -10] := by
    with_unfolding_all decide
  refine ⟨htr, ?_⟩
  rw [htr]
  intro h
  rcases List.chain'_cons.mp h with ⟨-, h2⟩
  rcases List.chain'_cons.mp h2 with ⟨h3, -⟩
  norm_num at h3

/-- C5 (amended).  The freed-payment pool of the scrapes engine obeys the
recurrence `pool(m+1) = pool(m) + Σ (original minimum payments of loans that
flipped from active to paid off during month m, in either phase)` — the
surplus spent within month m uses the pre-update pool, so a freed payment is
available only from the next month on; and provided every loan's minimum
payment is non-negative, the pool sequence (initial pool followed by the pool
after each month) is non-decreasing across the whole run. -/
theorem c5_freed_pool_recurrence_and_monotonicity :
    (∀ (base : ℚ) (m : Nat) (states : List LoanState) (pool : ℚ),
      (scrapesMonth base m states pool).2.2 =
        pool + (List.zipWith freedContrib states (scrapesMonth base m states pool).1).sum) ∧
    (∀ (loans : List Loan) (base lump : ℚ),
      (∀ l ∈ loans, 0 ≤ l.monthlyPayment) →
      List.Chain' (fun a b : ℚ => a ≤ b) (scrapesPoolTrace loans base lump)) := by
  constructor
  · exact scrapesMonth_pool_recurrence
  · intro loans base lump h
    rw [scrapesPoolTrace]
    exact scrapesLoop_pool_chain base 600 1 (scrapesInit loans lump).1 (scrapesInit loans lump).2
      (scrapesInit_orig_nonneg loans lump h)

/-- Witness for `c5_freed_pool_recurrence_and_monotonicity`: a single loan
with non-negative payment 10, base extra 5. -/
theorem c5_freed_pool_monotonicity_witness :
    (∀ l ∈ [(⟨1, 60, 0, 10, 0, 12⟩ : Loan)], 0 ≤ l.monthlyPayment) ∧
    List.Chain' (fun a b : ℚ => a ≤ b) (scrapesPoolTrace [⟨1, 60, 0, 10, 0, 12⟩] 5 0) :=
  ⟨fun l hl => by rcases List.mem_singleton.mp hl with rfl; norm_num,
    c5_freed_pool_recurrence_and_monotonicity.2 [⟨1, 60, 0, 10, 0, 12⟩] 5 0
      (fun l hl => by rcases List.mem_singleton.mp hl with rfl; norm_num)⟩

/-! ## Loans that start with non-positive balance (claim C8) -/

theorem baselineLoop_succ (fuel m : Nat) (states : List LoanState) :
    baselineLoop (fuel + 1) m states =
      if states.any (fun l => !l.isPaidOff) then
        (baselineMonth m states).2 :: baselineLoop fuel (m + 1) (baselineMonth m states).1
      else [] := rfl

theorem fixedStrategyLoop_succ (step : Nat → LoanState → LoanState × Option DebtPaymentPlan)
    (cmp : LoanState → LoanState → ℚ) (e : ℚ) (fuel m : Nat) (states : List LoanState) :
    fixedStrategyLoop step cmp e (fuel + 1) m states =
      if states.any (fun l => !l.isPaidOff) then
        (fixedStrategyMonth step cmp e m states).2 ::
          fixedStrategyLoop step cmp e fuel (m + 1) (fixedStrategyMonth step cmp e m states).1
      else [] := rfl

theorem scrapesLoop_succ (e : ℚ) (fuel m : Nat) (states : List LoanState) (pool : ℚ) :
    scrapesLoop e (fuel + 1) m states pool =
      if states.any (fun l => !l.isPaidOff && decide (1/100 < l.currentBalance)) then
        ((scrapesMonth e m states pool).2.1, (scrapesMonth e m states pool).2.2) ::
          scrapesLoop e fuel (m + 1) (scrapesMonth e m states pool).1
            (scrapesMonth e m states pool).2.2
      else [] := rfl

/-- A stuck baseline state: active but with balance within the 0.01 tolerance
is skipped by the month body and never marked paid off, so the loop runs for
all its fuel emitting empty-payment plans. -/
theorem baselineLoop_stuck (s : LoanState) (hpaid : s.isPaidOff = false)
    (hbal : s.currentBalance ≤ 1/100) :
    ∀ fuel m, (baselineLoop fuel m [s]).length = fuel ∧
      ∀ plan ∈ baselineLoop fuel m [s], plan.payments = [] ∧
        plan.totalInterest = 0 ∧ plan.totalPayment = 0 ∧ plan.totalPrincipal = 0 := by
  have hnlt : ¬ ((100:ℚ)⁻¹ < s.currentBalance) := by
    rw [← one_div]
    exact not_lt.mpr hbal
  have hstep : ∀ m, baselineMonth m [s] =
      ([s], { month := m, payments := [], totalPayment := 0, totalInterest := 0,
              totalPrincipal := 0, remainingDebts := 1, extraPaymentPool := 0,
              totalFreedPayments := 0, activeLoanCount := 1 }) := by
    intro m
    simp [baselineMonth, baselineLoanStep, hnlt, hpaid]
  intro fuel
  induction fuel with
  | zero => intro m; simp [baselineLoop]
  | succ n ih =>
    intro m
    rw [baselineLoop_succ, if_pos (by simp [hpaid]), hstep m]
    constructor
    · simpa using (ih (m + 1)).1
    · intro plan hplan
      rcases List.mem_cons.mp hplan with rfl | h2
      · exact ⟨rfl, rfl, rfl, rfl⟩
      · exact (ih (m + 1)).2 plan h2

/-- C8 counterexample: a loan with balance 0 (minimum payment 10).  In the
baseline its presence alone stretches the schedule to the full 600-month
ceiling (the empty loan list yields 0 months), because the month body skips
balances ≤ 0.01 and the loan is never marked paid off; and in the avalanche
engine the loan does receive a month-1 payment record whose minimum payment
contributes 10 to that month's totalPayment. -/
theorem c8_zero_balance_loan_is_not_inert :
    (calculateBaselineSchedule [⟨1, 0, 0, 10, 0, 12⟩]).length = 600 ∧
    calculateBaselineSchedule [] = [] ∧
    ((calculateAvalancheFixedStrategy [⟨1, 0, 0, 10, 0, 12⟩] 0 0).monthlySchedule.map
      (fun p => p.totalPayment)) = [10] := by
  refine ⟨?_, by simp [calculateBaselineSchedule, baselineLoop], ?_⟩
  · rw [calculateBaselineSchedule]
    exact (baselineLoop_stuck (initLoanState ⟨1, 0, 0, 10, 0, 12⟩) rfl
      (by norm_num [initLoanState]) 600 1).1
  · with_unfolding_all decide

/-- C8 (amended), for a loan that is the whole list, with `lumpSum = 0`,
starting balance ≤ 0, non-negative rate and non-negative minimum payment:

* the **baseline** never marks it paid off (its body requires
  `balance > 0.01`), so the loan's presence alone keeps the loop running for
  the full 600-month ceiling, albeit with no payment records and zero totals;
* **avalanche** and **snowball-fixed** process it in month 1: one record with
  interest `balance * rate/1200 ≤ 0` and principal equal to the (non-positive)
  balance, marked paid off; the schedule is that single month;
* **scrapes** marks it paid off at initialisation, adds its minimum payment to
  the freed pool, and emits an empty schedule. -/
theorem c8_nonpositive_balance_loan (l : Loan) (e : ℚ) (hbal : l.currentBalance ≤ 0)
    (hpay : 0 ≤ l.monthlyPayment) (hrate : 0 ≤ l.interestRate) :
    ((calculateBaselineSchedule [l]).length = 600 ∧
      ∀ plan ∈ calculateBaselineSchedule [l], plan.payments = [] ∧
        plan.totalInterest = 0 ∧ plan.totalPayment = 0 ∧ plan.totalPrincipal = 0) ∧
    ((calculateAvalancheFixedStrategy [l] e 0).monthlySchedule.map (fun p =>
        p.payments.map (fun q => (q.loanId, q.monthlyInterest, q.principalPayment, q.isPaidOff))) =
      [[(l.id, l.currentBalance * (l.interestRate / 100 / 12), l.currentBalance, true)]]) ∧
    ((calculateSnowballFixedStrategy [l] e 0).monthlySchedule.map (fun p =>
        p.payments.map (fun q => (q.loanId, q.monthlyInterest, q.principalPayment, q.isPaidOff))) =
      [[(l.id, l.currentBalance * (l.interestRate / 100 / 12), l.currentBalance, true)]]) ∧
    ((calculateSnowballScrapesStrategy [l] e 0).monthlySchedule = [] ∧
      (scrapesInit [l] 0).2 = l.monthlyPayment ∧
      ∀ s ∈ (scrapesInit [l] 0).1, s.isPaidOff = true) := by
  have hr2 : (0:ℚ) ≤ l.interestRate / 100 / 12 := by positivity
  have hprod : l.currentBalance * (l.interestRate / 100 / 12) ≤ 0 :=
    mul_nonpos_of_nonpos_of_nonneg hbal hr2
  have htol : l.currentBalance ≤ 1/100 := le_trans hbal (by norm_num)
  have hdec0 : decide ((0:ℚ) ≤ 1/100) = true := decide_eq_true (by norm_num)
  have hdecbal : decide (l.currentBalance ≤ 1/100) = true := decide_eq_true htol
  have hmin : min (l.monthlyPayment - l.currentBalance * (l.interestRate / 100 / 12))
      l.currentBalance = l.currentBalance := min_eq_right (by linarith)
  have hinit : lumpAdjustedState [l] 0 l = initLoanState l := by
    simp [lumpAdjustedState, initLoanState]
  have hpaidState :
      ({ initLoanState l with currentBalance := 0, isPaidOff := true } : LoanState) =
        ⟨l.id, 0, l.interestRate, l.monthlyPayment, l.monthlyPayment, true⟩ := by
    simp [initLoanState]
  refine ⟨?_, ?_, ?_, ?_⟩
  · exact ⟨(baselineLoop_stuck (initLoanState l) rfl htol 600 1).1,
      (baselineLoop_stuck (initLoanState l) rfl htol 600 1).2⟩
  · have hstep : avalancheLoanStep 1 (initLoanState l) =
        ({ initLoanState l with currentBalance := 0, isPaidOff := true },
          some { loanId := l.id, month := 1, currentBalance := 0 + l.currentBalance,
                 monthlyInterest := l.currentBalance * (l.interestRate / 100 / 12),
                 minimumPayment := l.monthlyPayment,
                 principalPayment := l.currentBalance, extraPayment := 0,
                 totalPayment := l.monthlyPayment, remainingBalance := 0,
                 isExtraPayment := false, isPaidOff := true }) := by
      simp [avalancheLoanStep, monthlyInterestOf, initLoanState, hmin, hdec0]
    have hsel : selectTargetIdx avalancheCmp (fun x => !x.isPaidOff)
        [{ initLoanState l with currentBalance := 0, isPaidOff := true }] = none := by
      simp [selectTargetIdx, enumFrom, sortCmp, initLoanState]
    have hmonth : fixedStrategyMonth avalancheLoanStep avalancheCmp e 1 [initLoanState l] =
        ([{ initLoanState l with currentBalance := 0, isPaidOff := true }],
          { month := 1,
            payments := [
              { loanId := l.id, month := 1, currentBalance := 0 + l.currentBalance,
                monthlyInterest := l.currentBalance * (l.interestRate / 100 / 12),
                minimumPayment := l.monthlyPayment,
                principalPayment := l.currentBalance, extraPayment := 0,
                totalPayment := l.monthlyPayment, remainingBalance := 0,
                isExtraPayment := false, isPaidOff := true }],
            totalPayment := l.monthlyPayment,
            totalInterest := l.currentBalance * (l.interestRate / 100 / 12),
            totalPrincipal := l.currentBalance, remainingDebts := 1,
            extraPaymentPool := e, totalFreedPayments := 0, activeLoanCount := 1 }) := by
      rw [fixedStrategyMonth]
      simp only [List.map_cons, List.map_nil, hstep, List.filterMap_cons, List.filterMap_nil]
      split
      · rw [hsel]
        simp [initLoanState]
      · simp [initLoanState]
    rw [calculateAvalancheFixedStrategy]
    simp only [List.map_cons, List.map_nil, hinit]
    rw [show (600:Nat) = 599 + 1 from rfl, fixedStrategyLoop_succ,
      if_pos (by simp [initLoanState]), hmonth,
      show (599:Nat) = 598 + 1 from rfl, fixedStrategyLoop_succ, if_neg (by simp)]
    simp
  · have hstep : snowballLoanStep 1 (initLoanState l) =
        ({ initLoanState l with currentBalance := 0, isPaidOff := true },
          some { loanId := l.id, month := 1, currentBalance := 0 + l.currentBalance,
                 monthlyInterest := l.currentBalance * (l.interestRate / 100 / 12),
                 minimumPayment := l.monthlyPayment,
                 principalPayment := l.currentBalance, extraPayment := 0,
                 totalPayment := l.monthlyPayment, remainingBalance := 0,
                 isExtraPayment := false, isPaidOff := true }) := by
      have hclamp : min l.currentBalance (50:ℚ) = l.currentBalance :=
        min_eq_left (by linarith)
      rcases lt_or_le l.currentBalance 0 with hneg | hzero
      · simp [snowballLoanStep, monthlyInterestOf, initLoanState, hmin, hdec0, hclamp,
          if_pos hneg]
      · have hbal0 : l.currentBalance = 0 := le_antisymm hbal hzero
        have hminp : min l.monthlyPayment (0:ℚ) = 0 := min_eq_right hpay
        norm_num [snowballLoanStep, monthlyInterestOf, initLoanState, hbal0, hminp, hpay]
    have hsel : selectTargetIdx snowballFixedCmp (fun x => !x.isPaidOff)
        [{ initLoanState l with currentBalance := 0, isPaidOff := true }] = none := by
      simp [selectTargetIdx, enumFrom, sortCmp, initLoanState]
    have hmonth : fixedStrategyMonth snowballLoanStep snowballFixedCmp e 1 [initLoanState l] =
        ([{ initLoanState l with currentBalance := 0, isPaidOff := true }],
          { month := 1,
            payments := [
              { loanId := l.id, month := 1, currentBalance := 0 + l.currentBalance,
                monthlyInterest := l.currentBalance * (l.interestRate / 100 / 12),
                minimumPayment := l.monthlyPayment,
                principalPayment := l.currentBalance, extraPayment := 0,
                totalPayment := l.monthlyPayment, remainingBalance := 0,
                isExtraPayment := false, isPaidOff := true }],
            totalPayment := l.monthlyPayment,
            totalInterest := l.currentBalance * (l.interestRate / 100 / 12),
            totalPrincipal := l.currentBalance, remainingDebts := 1,
            extraPaymentPool := e, totalFreedPayments := 0, activeLoanCount := 1 }) := by
      rw [fixedStrategyMonth]
      simp only [List.map_cons, List.map_nil, hstep, List.filterMap_cons, List.filterMap_nil]
      split
      · rw [hsel]
        simp [initLoanState]
      · simp [initLoanState]
    rw [calculateSnowballFixedStrategy]
    simp only [List.map_cons, List.map_nil, hinit]
    rw [show (600:Nat) = 599 + 1 from rfl, fixedStrategyLoop_succ,
      if_pos (by simp [initLoanState]), hmonth,
      show (599:Nat) = 598 + 1 from rfl, fixedStrategyLoop_succ, if_neg (by simp)]
    simp
  · have hlump : scrapesLumpBalances [l] 0 = [(l, l.currentBalance)] := by
      rw [scrapesLumpBalances, scrapesLumpGo, if_neg (by norm_num), scrapesLumpGo]
    have hinit2 : scrapesInit [l] 0 =
        ([⟨l.id, l.currentBalance, l.interestRate, l.monthlyPayment, l.monthlyPayment, true⟩],
          l.monthlyPayment) := by
      rw [scrapesInit, hlump]
      simp only [List.map_cons, List.map_nil, hdecbal]
      simp [List.filter]
    refine ⟨?_, by rw [hinit2], ?_⟩
    · rw [calculateSnowballScrapesStrategy]
      simp only [hinit2]
      rw [show (600:Nat) = 599 + 1 from rfl, scrapesLoop_succ, if_neg (by simp)]
      simp
    · intro s hs
      rw [hinit2] at hs
      rcases List.mem_singleton.mp hs with rfl
      rfl

/-- Witness for `c8_nonpositive_balance_loan`: loan with balance 0, rate 5,
payment 100, extra payment 7. -/
theorem c8_nonpositive_balance_loan_witness :
    ((⟨9, 0, 5, 100, 0, 12⟩ : Loan).currentBalance ≤ 0 ∧
      (0:ℚ) ≤ (⟨9, 0, 5, 100, 0, 12⟩ : Loan).monthlyPayment ∧
      (0:ℚ) ≤ (⟨9, 0, 5, 100, 0, 12⟩ : Loan).interestRate) ∧
    (calculateBaselineSchedule [(⟨9, 0, 5, 100, 0, 12⟩ : Loan)]).length = 600 ∧
    (calculateSnowballScrapesStrategy [(⟨9, 0, 5, 100, 0, 12⟩ : Loan)] 7 0).monthlySchedule = [] :=
  ⟨⟨by norm_num, by norm_num, by norm_num⟩,
    (c8_nonpositive_balance_loan ⟨9, 0, 5, 100, 0, 12⟩ 7 (by norm_num) (by norm_num)
      (by norm_num)).1.1,
    (c8_nonpositive_balance_loan ⟨9, 0, 5, 100, 0, 12⟩ 7 (by norm_num) (by norm_num)
      (by norm_num)).2.2.2.1⟩

/-! ## Baseline dominance (claim C1): counterexample lemmas -/

/-- A loan with payment 0 and 1%-per-month-times-100 rate (1200%/yr) is stuck
in the baseline: the negative principal is clamped to 0, the balance stays at
100, and every month accrues interest 100. -/
theorem c1aux_baseline_stuck_interest :
    ∀ fuel m, ((baselineLoop fuel m [⟨1, 100, 1200, 0, 0, false⟩]).map
      MonthlyPaymentPlan.totalInterest).sum = (fuel : ℚ) * 100 := by
  have hstep : ∀ m, baselineMonth m [⟨1, 100, 1200, 0, 0, false⟩] =
      ([⟨1, 100, 1200, 0, 0, false⟩],
        { month := m,
          payments := [⟨1, m, 100, 100, 0, 0, 0, 0, 100, false, false⟩],
          totalPayment := 0, totalInterest := 100, totalPrincipal := 0,
          remainingDebts := 1, extraPaymentPool := 0, totalFreedPayments := 0,
          activeLoanCount := 1 }) := by
    intro m
    have hstep0 : baselineLoanStep m ⟨1, 100, 1200, 0, 0, false⟩ =
        (⟨1, 100, 1200, 0, 0, false⟩,
          some ⟨1, m, 100, 100, 0, 0, 0, 0, 100, false, false⟩) := by
      norm_num [baselineLoanStep, monthlyInterestOf, decide_eq_false_iff_not]
    simp [baselineMonth, hstep0]
  intro fuel
  induction fuel with
  | zero => intro m; simp [baselineLoop]
  | succ n ih =>
    intro m
    rw [baselineLoop_succ, if_pos (by simp), hstep m]
    simp only [List.map_cons, List.sum_cons, ih (m + 1)]
    push_cast
    ring

/-- One avalanche phase-1 step on the stuck loan: the unclamped principal is
`0 - b` and the balance doubles. -/
theorem c1aux_avalanche_step (m : Nat) (b : ℚ) (hb : 1/100 < b) :
    avalancheLoanStep m ⟨1, b, 1200, 0, 0, false⟩ =
      (⟨1, 2 * b, 1200, 0, 0, false⟩,
        some ⟨1, m, b, b, 0, 0 - b, 0, 0, 2 * b, false, false⟩) := by
  have hb0 : (0:ℚ) < b := lt_trans (by norm_num) hb
  have hint : monthlyInterestOf (⟨1, b, 1200, 0, 0, false⟩ : LoanState) = b := by
    rw [monthlyInterestOf]
    show b * (1200 / 100 / 12) = b
    norm_num
  have hmin2 : min ((0:ℚ) - b) b = 0 - b := min_eq_left (by linarith)
  have hpaid : decide (b - (0 - b) ≤ 1/100) = false := by
    rw [decide_eq_false_iff_not]
    intro hcon
    linarith
  rw [avalancheLoanStep, if_pos rfl]
  simp only [hint, hmin2, hpaid]
  norm_num
  ring

/-- One avalanche month (no extra payment) on the stuck loan. -/
theorem c1aux_avalanche_month (m : Nat) (b : ℚ) (hb : 1/100 < b) :
    fixedStrategyMonth avalancheLoanStep avalancheCmp 0 m [⟨1, b, 1200, 0, 0, false⟩] =
      ([⟨1, 2 * b, 1200, 0, 0, false⟩],
        { month := m, payments := [⟨1, m, b, b, 0, 0 - b, 0, 0, 2 * b, false, false⟩],
          totalPayment := 0, totalInterest := b, totalPrincipal := 0 - b,
          remainingDebts := 1, extraPaymentPool := 0, totalFreedPayments := 0,
          activeLoanCount := 1 }) := by
  have hnotlt : ¬ ((0:ℚ) < 0) := by norm_num
  rw [fixedStrategyMonth]
  simp [c1aux_avalanche_step m b hb, hnotlt]

/-- In the avalanche engine the stuck loan's balance doubles every month, so
the accumulated interest of a run with `fuel` months left is
`(2^fuel − 1) · balance`. -/
theorem c1aux_avalanche_doubling :
    ∀ (fuel m : Nat) (b : ℚ), 1/100 < b →
      ((fixedStrategyLoop avalancheLoanStep avalancheCmp 0 fuel m
          [⟨1, b, 1200, 0, 0, false⟩]).map MonthlyPaymentPlan.totalInterest).sum =
        (2 ^ fuel - 1) * b := by
  intro fuel
  induction fuel with
  | zero => intro m b hb; simp [fixedStrategyLoop]
  | succ n ih =>
    intro m b hb
    rw [fixedStrategyLoop_succ, if_pos (by simp), c1aux_avalanche_month m b hb]
    simp only [List.map_cons, List.sum_cons]
    rw [ih (m + 1) (2 * b) (by linarith)]
    rw [pow_succ]
    ring

/-- C1 counterexample: the baseline's total interest is *less* than the
avalanche strategy's total interest on three kinds of single-loan inputs with
non-negative `extraPaymentBase` and zero lump sum: (a) a negative interest
rate, where faster repayment accrues less negative interest; (b) a
non-negative rate with a minimum payment below the monthly interest, where
the baseline clamps the principal at 0 but the avalanche engine's unclamped
negative principal makes the balance (and interest) grow for the whole
600-month run; (c) a starting balance within the 0.01 tolerance, which the
baseline never touches (interest 0) but the avalanche engine charges one
month of interest on. -/
theorem c1_baseline_interest_not_dominant :
    (((calculateBaselineSchedule [⟨1, 100, -120, 60, 0, 12⟩]).map
        MonthlyPaymentPlan.totalInterest).sum <
      (calculateAvalancheFixedStrategy [⟨1, 100, -120, 60, 0, 12⟩] 100 0).totalInterest) ∧
    (((calculateBaselineSchedule [⟨1, 100, 1200, 0, 0, 12⟩]).map
        MonthlyPaymentPlan.totalInterest).sum <
      (calculateAvalancheFixedStrategy [⟨1, 100, 1200, 0, 0, 12⟩] 0 0).totalInterest) ∧
    (((calculateBaselineSchedule [⟨1, 1/200, 12, 100, 0, 12⟩]).map
        MonthlyPaymentPlan.totalInterest).sum <
      (calculateAvalancheFixedStrategy [⟨1, 1/200, 12, 100, 0, 12⟩] 0 0).totalInterest) := by
  refine ⟨by with_unfolding_all decide, ?_, ?_⟩
  · have hbase : ((calculateBaselineSchedule [⟨1, 100, 1200, 0, 0, 12⟩]).map
        MonthlyPaymentPlan.totalInterest).sum = 60000 := by
      rw [calculateBaselineSchedule]
      simp only [List.map_cons, List.map_nil]
      have h2 : initLoanState ⟨1, 100, 1200, 0, 0, 12⟩ =
          (⟨1, 100, 1200, 0, 0, false⟩ : LoanState) := rfl
      rw [h2, c1aux_baseline_stuck_interest 600 1]
      norm_num
    have havala : (calculateAvalancheFixedStrategy [⟨1, 100, 1200, 0, 0, 12⟩] 0 0).totalInterest =
        (2 ^ (600:Nat) - 1) * 100 := by
      have hstate0 : lumpAdjustedState [⟨1, 100, 1200, 0, 0, 12⟩] 0 ⟨1, 100, 1200, 0, 0, 12⟩ =
          (⟨1, 100, 1200, 0, 0, false⟩ : LoanState) := by
        simp [lumpAdjustedState]
      rw [calculateAvalancheFixedStrategy]
      simp only [List.map_cons, List.map_nil, hstate0]
      exact c1aux_avalanche_doubling 600 1 100 (by norm_num)
    rw [hbase, havala]
    norm_num
  · have hbase : ((calculateBaselineSchedule [⟨1, 1/200, 12, 100, 0, 12⟩]).map
        MonthlyPaymentPlan.totalInterest).sum = 0 := by
      apply List.sum_eq_zero
      intro x hx
      rcases List.mem_map.mp hx with ⟨plan, hplan, rfl⟩
      exact ((baselineLoop_stuck (initLoanState ⟨1, 1/200, 12, 100, 0, 12⟩) rfl
        (by norm_num [initLoanState]) 600 1).2 plan hplan).2.1
    rw [hbase]
    with_unfolding_all decide

/-! ## Baseline dominance (claim C1): the amended dominance theorem -/

theorem sub_min_eq_max (a x : ℚ) : x - min a x = max (x - a) 0 := by
  rcases le_total a x with h | h
  · rw [min_eq_left h, max_eq_left (by linarith)]
  · rw [min_eq_right h, max_eq_right (by linarith), sub_self]

theorem domStepRaw_mono (bs bb r pay : ℚ) (hr : 0 ≤ r) (h : bs ≤ bb) :
    bs - min (pay - bs * (r / 100 / 12)) bs ≤ bb - min (pay - bb * (r / 100 / 12)) bb := by
  rw [sub_min_eq_max, sub_min_eq_max]
  have hr' : (0:ℚ) ≤ r / 100 / 12 := by positivity
  exact max_le_max (by nlinarith) le_rfl

theorem domStepBal_nonneg (bal r pay : ℚ) (_h : 0 ≤ bal) : 0 ≤ domStepBal bal r pay := by
  rw [domStepBal]
  split
  · exact le_rfl
  · have := min_le_right (pay - bal * (r / 100 / 12)) bal
    linarith

theorem domStepBal_le (bal r pay : ℚ) (h0 : 0 ≤ bal)
    (hc : bal * (r / 100 / 12) ≤ pay) : domStepBal bal r pay ≤ bal := by
  rw [domStepBal]
  split
  · exact h0
  · have : 0 ≤ min (pay - bal * (r / 100 / 12)) bal := le_min (by linarith) h0
    linarith

theorem domStepPaid_true_bal (bal r pay : ℚ) (h : domStepPaid bal r pay = true) :
    domStepBal bal r pay = 0 := by
  rw [domStepPaid, decide_eq_true_eq] at h
  rw [domStepBal, if_pos h]

theorem domStepPaid_false_bal (bal r pay : ℚ) (h : domStepPaid bal r pay = false) :
    1/100 < domStepBal bal r pay := by
  rw [domStepPaid, decide_eq_false_iff_not] at h
  rw [domStepBal, if_neg h]
  linarith [not_le.mp h]

theorem domStepBal_mono (bs bb r pay : ℚ) (hr : 0 ≤ r) (h : bs ≤ bb) :
    domStepBal bs r pay ≤ domStepBal bb r pay := by
  have hkey := domStepRaw_mono bs bb r pay hr h
  rw [domStepBal, domStepBal]
  by_cases hA : bs - min (pay - bs * (r / 100 / 12)) bs ≤ 1/100
  · rw [if_pos hA]
    by_cases hB : bb - min (pay - bb * (r / 100 / 12)) bb ≤ 1/100
    · rw [if_pos hB]
    · rw [if_neg hB]; linarith [not_le.mp hB]
  · rw [if_neg hA, if_neg (by linarith [not_le.mp hA] : ¬(bb - min (pay - bb * (r / 100 / 12)) bb ≤ 1/100))]
    exact hkey

theorem domStepPaid_mono (bs bb r pay : ℚ) (hr : 0 ≤ r) (h : bs ≤ bb)
    (hb : domStepPaid bb r pay = true) : domStepPaid bs r pay = true := by
  have hkey := domStepRaw_mono bs bb r pay hr h
  rw [domStepPaid, decide_eq_true_eq] at hb ⊢
  linarith

theorem domStepBal_zero (r pay : ℚ) (hpay : 0 ≤ pay) :
    domStepBal 0 r pay = 0 ∧ domStepPaid 0 r pay = true := by
  have hmin : min (pay - 0 * (r / 100 / 12)) 0 = 0 := by
    rw [min_eq_right (by linarith)]
  constructor
  · rw [domStepBal, hmin]
    norm_num
  · rw [domStepPaid, hmin]
    norm_num

theorem baselineLoanStep_skip (m : Nat) (b : LoanState)
    (h : ¬(b.isPaidOff = false ∧ 1/100 < b.currentBalance)) :
    baselineLoanStep m b = (b, none) := by
  rw [baselineLoanStep, if_neg h]

theorem baselineLoanStep_proc (m : Nat) (b : LoanState) (hm : b.isPaidOff = false)
    (hb : 1/100 < b.currentBalance)
    (hc : b.currentBalance * (b.interestRate / 100 / 12) ≤ b.currentMinimumPayment) :
    (baselineLoanStep m b).1 =
      { b with
        currentBalance := domStepBal b.currentBalance b.interestRate b.currentMinimumPayment,
        isPaidOff := domStepPaid b.currentBalance b.interestRate b.currentMinimumPayment } ∧
    (baselineLoanStep m b).2.elim 0 DebtPaymentPlan.monthlyInterest = monthlyInterestOf b := by
  have hp1 : 0 ≤ b.currentMinimumPayment - monthlyInterestOf b := by
    rw [monthlyInterestOf]; linarith
  have hp2 : (if b.currentBalance < b.currentMinimumPayment - monthlyInterestOf b
      then b.currentBalance else b.currentMinimumPayment - monthlyInterestOf b) =
      min (b.currentMinimumPayment - monthlyInterestOf b) b.currentBalance := by
    rcases lt_or_le b.currentBalance (b.currentMinimumPayment - monthlyInterestOf b) with h | h
    · rw [if_pos h, min_eq_right h.le]
    · rw [if_neg (not_lt.mpr h), min_eq_left h]
  have hmin0 : 0 ≤ min (b.currentMinimumPayment - monthlyInterestOf b) b.currentBalance :=
    le_min hp1 (by linarith)
  rw [baselineLoanStep, if_pos ⟨hm, hb⟩]
  simp only [hp2, if_neg (not_lt.mpr hmin0)]
  constructor
  · rw [domStepBal, domStepPaid, monthlyInterestOf]
    by_cases hpaid : b.currentBalance -
        min (b.currentMinimumPayment - b.currentBalance * (b.interestRate / 100 / 12))
          b.currentBalance ≤ 1/100
    · simp [monthlyInterestOf, hpaid]
    · simp [monthlyInterestOf, hpaid]
  · simp [monthlyInterestOf]

theorem avalancheLoanStep_skip (m : Nat) (s : LoanState) (h : ¬s.isPaidOff = false) :
    avalancheLoanStep m s = (s, none) := by
  rw [avalancheLoanStep, if_neg h]

theorem avalancheLoanStep_proc (m : Nat) (s : LoanState) (hm : s.isPaidOff = false) :
    (avalancheLoanStep m s).1 =
      { s with
        currentBalance := domStepBal s.currentBalance s.interestRate s.currentMinimumPayment,
        isPaidOff := domStepPaid s.currentBalance s.interestRate s.currentMinimumPayment } ∧
    (avalancheLoanStep m s).2.elim 0 DebtPaymentPlan.monthlyInterest = monthlyInterestOf s := by
  rw [avalancheLoanStep, if_pos hm]
  constructor
  · rw [domStepBal, domStepPaid, monthlyInterestOf]
    by_cases hpaid : s.currentBalance -
        min (s.currentMinimumPayment - s.currentBalance * (s.interestRate / 100 / 12))
          s.currentBalance ≤ 1/100
    · simp [monthlyInterestOf, hpaid]
    · simp [monthlyInterestOf, hpaid]
  · simp [monthlyInterestOf]

theorem snowballLoanStep_eq_aval (m : Nat) (s : LoanState) (h0 : 0 ≤ s.currentBalance)
    (hc : s.currentBalance * (s.interestRate / 100 / 12) ≤ s.currentMinimumPayment) :
    snowballLoanStep m s = avalancheLoanStep m s := by
  rw [snowballLoanStep, avalancheLoanStep]
  by_cases hm : s.isPaidOff = false
  · rw [if_pos hm, if_pos hm]
    have hnc : ¬(min (s.currentMinimumPayment - monthlyInterestOf s) s.currentBalance < 0) := by
      push_neg
      exact le_min (by rw [monthlyInterestOf]; linarith) h0
    simp only [if_neg hnc]
  · rw [if_neg hm, if_neg hm]

theorem scrapesLoanStep_skip2 (m : Nat) (s : LoanState)
    (h : ¬(s.isPaidOff = false ∧ 1/100 < s.currentBalance)) :
    scrapesLoanStep m s = (s, none, 0) := by
  rw [scrapesLoanStep, if_neg h]

theorem scrapesLoanStep_proc (m : Nat) (s : LoanState) (hm : s.isPaidOff = false)
    (hb : 1/100 < s.currentBalance)
    (hc : s.currentBalance * (s.interestRate / 100 / 12) ≤ s.currentMinimumPayment) :
    (scrapesLoanStep m s).1 =
      { s with
        currentBalance := domStepBal s.currentBalance s.interestRate s.currentMinimumPayment,
        isPaidOff := domStepPaid s.currentBalance s.interestRate s.currentMinimumPayment } ∧
    (scrapesLoanStep m s).2.1.elim 0 DebtPaymentPlan.monthlyInterest = monthlyInterestOf s := by
  have hnc : ¬(min (s.currentMinimumPayment - monthlyInterestOf s) s.currentBalance < 0) := by
    push_neg
    exact le_min (by rw [monthlyInterestOf]; linarith) (by linarith)
  rw [scrapesLoanStep, if_pos ⟨hm, hb⟩]
  simp only [if_neg hnc]
  constructor
  · rw [domStepBal, domStepPaid, monthlyInterestOf]
    by_cases hpaid : s.currentBalance -
        min (s.currentMinimumPayment - s.currentBalance * (s.interestRate / 100 / 12))
          s.currentBalance ≤ 1/100
    · simp [monthlyInterestOf, hpaid]
    · simp [monthlyInterestOf, hpaid]
  · simp [monthlyInterestOf]

theorem bside_of_domRel (b s : LoanState) (h : DomRel b s) : BSide b := by
  obtain ⟨h1, h2, h3, h4, h5, h6, h7, h8, h9, h10⟩ := h
  exact ⟨h3, le_trans h4 h5, h6, h8, h10⟩

theorem domRel_proc_core (b s : LoanState) (h : DomRel b s) :
    DomRel
      { b with
        currentBalance := domStepBal b.currentBalance b.interestRate b.currentMinimumPayment,
        isPaidOff := domStepPaid b.currentBalance b.interestRate b.currentMinimumPayment }
      { s with
        currentBalance := domStepBal s.currentBalance s.interestRate s.currentMinimumPayment,
        isPaidOff := domStepPaid s.currentBalance s.interestRate s.currentMinimumPayment } ∧
    monthlyInterestOf s ≤ monthlyInterestOf b := by
  obtain ⟨h1, h2, h3, h4, h5, h6, h7, h8, h9, h10⟩ := h
  have hr' : (0:ℚ) ≤ b.interestRate / 100 / 12 := by positivity
  have hb0 : 0 ≤ b.currentBalance := le_trans h4 h5
  constructor
  · refine ⟨h1, h2, h3, ?_, ?_, ?_, ?_, ?_, ?_, ?_⟩
    · exact domStepBal_nonneg _ _ _ h4
    · rw [h1, h2]
      exact domStepBal_mono _ _ _ _ h3 h5
    · calc domStepBal b.currentBalance b.interestRate b.currentMinimumPayment *
            (b.interestRate / 100 / 12)
          ≤ b.currentBalance * (b.interestRate / 100 / 12) := by
            have := domStepBal_le b.currentBalance b.interestRate b.currentMinimumPayment hb0 h6
            exact mul_le_mul_of_nonneg_right this hr'
        _ ≤ b.currentMinimumPayment := h6
    · intro hp
      rw [h1, h2]
      exact domStepPaid_mono _ _ _ _ h3 h5 hp
    · intro hp
      exact domStepPaid_true_bal _ _ _ hp
    · intro hp
      exact domStepPaid_true_bal _ _ _ hp
    · by_cases hp : domStepPaid b.currentBalance b.interestRate b.currentMinimumPayment = true
      · exact Or.inl (domStepPaid_true_bal _ _ _ hp)
      · exact Or.inr (domStepPaid_false_bal _ _ _ (Bool.eq_false_iff.mpr hp ▸ rfl))
  · rw [monthlyInterestOf, monthlyInterestOf, h1]
    exact mul_le_mul_of_nonneg_right h5 hr'

theorem domRel_baseline_side (m : Nat) (b s : LoanState) (h : DomRel b s)
    (hsm : s.isPaidOff = true) :
    DomRel (baselineLoanStep m b).1 s ∧
    0 ≤ (baselineLoanStep m b).2.elim 0 DebtPaymentPlan.monthlyInterest := by
  obtain ⟨h1, h2, h3, h4, h5, h6, h7, h8, h9, h10⟩ := h
  have hr' : (0:ℚ) ≤ b.interestRate / 100 / 12 := by positivity
  have hb0 : 0 ≤ b.currentBalance := le_trans h4 h5
  by_cases hbm : b.isPaidOff = false
  · rcases h10 with hz | hgt
    · have hskip := baselineLoanStep_skip m b (by rw [hz]; norm_num)
      rw [hskip]
      exact ⟨⟨h1, h2, h3, h4, h5, h6, h7, h8, h9, Or.inl hz⟩, le_rfl⟩
    · obtain ⟨hst, hrec⟩ := baselineLoanStep_proc m b hbm hgt h6
      rw [hst, hrec]
      have hs0 : s.currentBalance = 0 := h9 hsm
      constructor
      · refine ⟨h1, h2, h3, h4, ?_, ?_, ?_, ?_, h9, ?_⟩
        · rw [hs0]
          exact domStepBal_nonneg _ _ _ hb0
        · calc domStepBal b.currentBalance b.interestRate b.currentMinimumPayment *
                (b.interestRate / 100 / 12)
              ≤ b.currentBalance * (b.interestRate / 100 / 12) :=
                mul_le_mul_of_nonneg_right
                  (domStepBal_le b.currentBalance b.interestRate b.currentMinimumPayment hb0 h6) hr'
            _ ≤ b.currentMinimumPayment := h6
        · intro _; exact hsm
        · intro hp; exact domStepPaid_true_bal _ _ _ hp
        · by_cases hp : domStepPaid b.currentBalance b.interestRate b.currentMinimumPayment = true
          · exact Or.inl (domStepPaid_true_bal _ _ _ hp)
          · exact Or.inr (domStepPaid_false_bal _ _ _ (Bool.eq_false_iff.mpr hp ▸ rfl))
      · rw [monthlyInterestOf]
        positivity
  · have hskip := baselineLoanStep_skip m b (by tauto)
    rw [hskip]
    exact ⟨⟨h1, h2, h3, h4, h5, h6, h7, h8, h9, h10⟩, le_rfl⟩

theorem domRel_step_aval (m : Nat) (b s : LoanState) (h : DomRel b s) :
    DomRel (baselineLoanStep m b).1 (avalancheLoanStep m s).1 ∧
    (avalancheLoanStep m s).2.elim 0 DebtPaymentPlan.monthlyInterest ≤
      (baselineLoanStep m b).2.elim 0 DebtPaymentPlan.monthlyInterest := by
  obtain ⟨h1, h2, h3, h4, h5, h6, h7, h8, h9, h10⟩ := h
  by_cases hsm : s.isPaidOff = false
  · have hbm : b.isPaidOff = false := by
      cases hb2 : b.isPaidOff
      · rfl
      · exact absurd (h7 hb2) (by simp [hsm])
    obtain ⟨hstA, hrecA⟩ := avalancheLoanStep_proc m s hsm
    rcases h10 with hz | hgt
    · have hrs : s.currentBalance = 0 := le_antisymm (hz ▸ h5) h4
      have hskip := baselineLoanStep_skip m b (by rw [hz]; norm_num)
      have hpay0 : 0 ≤ b.currentMinimumPayment := by
        rw [hz] at h6; simpa using h6
      obtain ⟨hdb, hdp⟩ := domStepBal_zero s.interestRate s.currentMinimumPayment
        (by rw [h2]; exact hpay0)
      rw [hskip, hstA, hrecA, hrs, hdb, hdp]
      constructor
      · exact ⟨h1, h2, h3, le_rfl, by rw [hz], h6, fun _ => rfl, h8, fun _ => rfl, Or.inl hz⟩
      · rw [monthlyInterestOf, hrs, zero_mul]
        simp
    · obtain ⟨hstB, hrecB⟩ := baselineLoanStep_proc m b hbm hgt h6
      rw [hstB, hstA, hrecB, hrecA]
      exact domRel_proc_core b s ⟨h1, h2, h3, h4, h5, h6, h7, h8, h9, Or.inr hgt⟩
  · have hsm' : s.isPaidOff = true := by
      cases hb2 : s.isPaidOff
      · exact absurd hb2 hsm
      · rfl
    rw [avalancheLoanStep_skip m s hsm]
    obtain ⟨hrel, hnn⟩ :=
      domRel_baseline_side m b s ⟨h1, h2, h3, h4, h5, h6, h7, h8, h9, h10⟩ hsm'
    refine ⟨hrel, ?_⟩
    simpa using hnn

theorem domRel_step_snow (m : Nat) (b s : LoanState) (h : DomRel b s) :
    DomRel (baselineLoanStep m b).1 (snowballLoanStep m s).1 ∧
    (snowballLoanStep m s).2.elim 0 DebtPaymentPlan.monthlyInterest ≤
      (baselineLoanStep m b).2.elim 0 DebtPaymentPlan.monthlyInterest := by
  have hcs : s.currentBalance * (s.interestRate / 100 / 12) ≤ s.currentMinimumPayment := by
    obtain ⟨h1, h2, h3, h4, h5, h6, -, -, -, -⟩ := h
    rw [h1, h2]
    have hr' : (0:ℚ) ≤ b.interestRate / 100 / 12 := by positivity
    calc s.currentBalance * (b.interestRate / 100 / 12)
        ≤ b.currentBalance * (b.interestRate / 100 / 12) :=
          mul_le_mul_of_nonneg_right h5 hr'
      _ ≤ b.currentMinimumPayment := h6
  rw [snowballLoanStep_eq_aval m s h.2.2.2.1 hcs]
  exact domRel_step_aval m b s h

theorem scrRel_step (m : Nat) (b s : LoanState) (h : ScrRel b s) :
    ScrRel (baselineLoanStep m b).1 (scrapesLoanStep m s).1 ∧
    (scrapesLoanStep m s).2.1.elim 0 DebtPaymentPlan.monthlyInterest ≤
      (baselineLoanStep m b).2.elim 0 DebtPaymentPlan.monthlyInterest := by
  obtain ⟨hd, hact⟩ := h
  by_cases hsm : s.isPaidOff = false
  · have hgt_s := hact hsm
    obtain ⟨h1, h2, h3, h4, h5, h6, h7, h8, h9, h10⟩ := hd
    have hbm : b.isPaidOff = false := by
      cases hb2 : b.isPaidOff
      · rfl
      · exact absurd (h7 hb2) (by simp [hsm])
    have hgt_b : 1/100 < b.currentBalance := lt_of_lt_of_le hgt_s h5
    have hcs : s.currentBalance * (s.interestRate / 100 / 12) ≤ s.currentMinimumPayment := by
      rw [h1, h2]
      have hr' : (0:ℚ) ≤ b.interestRate / 100 / 12 := by positivity
      calc s.currentBalance * (b.interestRate / 100 / 12)
          ≤ b.currentBalance * (b.interestRate / 100 / 12) :=
            mul_le_mul_of_nonneg_right h5 hr'
        _ ≤ b.currentMinimumPayment := h6
    obtain ⟨hstS, hrecS⟩ := scrapesLoanStep_proc m s hsm hgt_s hcs
    obtain ⟨hstB, hrecB⟩ := baselineLoanStep_proc m b hbm hgt_b h6
    rw [hstS, hstB, hrecS, hrecB]
    obtain ⟨hcore, hint⟩ :=
      domRel_proc_core b s ⟨h1, h2, h3, h4, h5, h6, h7, h8, h9, Or.inr hgt_b⟩
    refine ⟨⟨hcore, ?_⟩, hint⟩
    intro hup
    exact domStepPaid_false_bal _ _ _ hup
  · have hsm' : s.isPaidOff = true := by
      cases hb2 : s.isPaidOff
      · exact absurd hb2 hsm
      · rfl
    rw [scrapesLoanStep_skip2 m s (by tauto)]
    obtain ⟨hrel, hnn⟩ := domRel_baseline_side m b s hd hsm'
    refine ⟨⟨hrel, hact⟩, ?_⟩
    simpa using hnn

theorem forall2_map_rel {R S : LoanState → LoanState → Prop}
    {fb fs : LoanState → LoanState} (hf : ∀ b s, R b s → S (fb b) (fs s)) :
    ∀ {bs ss : List LoanState}, List.Forall₂ R bs ss →
      List.Forall₂ S (bs.map fb) (ss.map fs) := by
  intro bs ss h
  induction h with
  | nil => simp
  | cons h1 _ ih =>
    simp only [List.map_cons]
    exact List.Forall₂.cons (hf _ _ h1) ih

theorem forall2_sum_le {R : LoanState → LoanState → Prop} (gb gs : LoanState → ℚ)
    (hf : ∀ b s, R b s → gs s ≤ gb b) :
    ∀ {bs ss : List LoanState}, List.Forall₂ R bs ss →
      (ss.map gs).sum ≤ (bs.map gb).sum := by
  intro bs ss h
  induction h with
  | nil => simp
  | cons h1 _ ih =>
    simp only [List.map_cons, List.sum_cons]
    exact add_le_add (hf _ _ h1) ih

theorem filterMap_interest_sum (f : LoanState → LoanState × Option DebtPaymentPlan) :
    ∀ states : List LoanState,
      (((states.map f).filterMap Prod.snd).map DebtPaymentPlan.monthlyInterest).sum =
        (states.map (fun s => ((f s).2).elim 0 DebtPaymentPlan.monthlyInterest)).sum := by
  intro states
  induction states with
  | nil => simp
  | cons a as ih =>
    cases hfa : (f a).2 with
    | none =>
      simp only [List.map_cons, List.filterMap_cons, hfa, List.sum_cons]
      rw [ih]
      simp
    | some r =>
      simp only [List.map_cons, List.filterMap_cons, hfa, List.sum_cons]
      rw [ih]
      simp

theorem filterMap_interest_sum_scr (f : LoanState → LoanState × Option DebtPaymentPlan × ℚ) :
    ∀ states : List LoanState,
      (((states.map f).filterMap (fun r => r.2.1)).map DebtPaymentPlan.monthlyInterest).sum =
        (states.map (fun s => ((f s).2.1).elim 0 DebtPaymentPlan.monthlyInterest)).sum := by
  intro states
  induction states with
  | nil => simp
  | cons a as ih =>
    cases hfa : (f a).2.1 with
    | none =>
      simp only [List.map_cons, List.filterMap_cons, hfa, List.sum_cons]
      rw [ih]
      simp
    | some r =>
      simp only [List.map_cons, List.filterMap_cons, hfa, List.sum_cons]
      rw [ih]
      simp

theorem forall2_set_right {R : LoanState → LoanState → Prop} :
    ∀ {bs ss : List LoanState}, List.Forall₂ R bs ss →
      ∀ (i : Nat) (t x : LoanState), ss.get? i = some t →
        (∀ b, R b t → R b x) → List.Forall₂ R bs (ss.set i x) := by
  intro bs ss h
  induction h with
  | nil =>
    intro i t x hget _
    simp at hget
  | cons h1 h2 ih =>
    intro i t x hget hx
    cases i with
    | zero =>
      simp only [List.get?] at hget
      obtain rfl : _ = t := Option.some.inj hget
      exact List.Forall₂.cons (hx _ h1) h2
    | succ n =>
      simp only [List.get?] at hget
      exact List.Forall₂.cons h1 (ih n t x hget hx)

theorem forall2_any_transfer {R : LoanState → LoanState → Prop}
    (hRimp : ∀ b s, R b s → b.isPaidOff = true → s.isPaidOff = true)
    {bs ss : List LoanState} (h : List.Forall₂ R bs ss) (p : LoanState → Bool)
    (hp : ∀ l, p l = true → l.isPaidOff = false) (hany : ss.any p = true) :
    bs.any (fun l => !l.isPaidOff) = true := by
  rcases List.any_eq_true.mp hany with ⟨x, hx, hpx⟩
  obtain ⟨⟨n, hn⟩, rfl⟩ := List.mem_iff_get.mp hx
  have hlen : bs.length = ss.length := List.Forall₂.length_eq h
  have hR := (List.forall₂_iff_get.mp h).2 n (by omega) hn
  refine List.any_eq_true.mpr ⟨bs.get ⟨n, by omega⟩, List.get_mem bs n (by omega), ?_⟩
  have hbm : (bs.get ⟨n, by omega⟩).isPaidOff = false := by
    cases hb2 : (bs.get ⟨n, by omega⟩).isPaidOff
    · rfl
    · have := hRimp _ _ hR hb2
      rw [hp _ hpx] at this
      exact this.symm
  simp only [Bool.not_eq_true']
  exact hbm

theorem bside_of_forall2 {R : LoanState → LoanState → Prop}
    (hRB : ∀ b s, R b s → BSide b) {bs ss : List LoanState}
    (h : List.Forall₂ R bs ss) : ∀ b ∈ bs, BSide b := by
  intro b hb
  obtain ⟨⟨n, hn⟩, rfl⟩ := List.mem_iff_get.mp hb
  have hlen : bs.length = ss.length := List.Forall₂.length_eq h
  have hR := (List.forall₂_iff_get.mp h).2 n hn (by omega)
  exact hRB _ _ hR

theorem applyExtraAt_fst (e : ℚ) (i : Nat) (t : LoanState) (states : List LoanState)
    (plan : MonthlyPaymentPlan) :
    (applyExtraAt e i t states plan).1 = states.set i (extraApplied e t) := by
  rw [applyExtraAt, extraApplied]
  by_cases hP : t.currentBalance - min e t.currentBalance ≤ 1/100
  · simp [hP]
  · simp [hP]

theorem applyExtraAt_totalInterest (e : ℚ) (i : Nat) (t : LoanState)
    (states : List LoanState) (plan : MonthlyPaymentPlan) :
    (applyExtraAt e i t states plan).2.totalInterest = plan.totalInterest := by
  rw [applyExtraAt]

theorem scrapesApplyExtra_fst (tot : ℚ) (i : Nat) (t : LoanState) (s1 : List LoanState)
    (plan0 : MonthlyPaymentPlan) (nf : ℚ) :
    (scrapesApplyExtra tot i t s1 plan0 nf).1 = s1.set i (extraApplied tot t) := by
  rw [scrapesApplyExtra, extraApplied]
  by_cases hP : t.currentBalance - min tot t.currentBalance ≤ 1/100
  · simp [hP]
  · simp [hP]

theorem scrapesApplyExtra_totalInterest (tot : ℚ) (i : Nat) (t : LoanState)
    (s1 : List LoanState) (plan0 : MonthlyPaymentPlan) (nf : ℚ) :
    (scrapesApplyExtra tot i t s1 plan0 nf).2.1.totalInterest = plan0.totalInterest := by
  rw [scrapesApplyExtra]

theorem domRel_extra_update (e : ℚ) (he : 0 < e) (b t : LoanState) (h : DomRel b t) :
    DomRel b (extraApplied e t) := by
  obtain ⟨h1, h2, h3, h4, h5, h6, h7, h8, h9, h10⟩ := h
  have hmin0 : 0 ≤ min e t.currentBalance := le_min he.le h4
  have hble : t.currentBalance - min e t.currentBalance ≤ t.currentBalance := by linarith
  have hb0' : 0 ≤ t.currentBalance - min e t.currentBalance := by
    have := min_le_right e t.currentBalance
    linarith
  rw [extraApplied]
  refine ⟨h1, h2, h3, ?_, ?_, h6, ?_, h8, ?_, h10⟩
  · split
    · exact le_rfl
    · exact hb0'
  · split
    · exact le_trans h4 h5
    · exact le_trans hble h5
  · intro hb2
    have ht2 := h7 hb2
    have htz := h9 ht2
    have : t.currentBalance - min e t.currentBalance ≤ 1/100 := by
      rw [htz]
      have : min e (0:ℚ) = 0 := min_eq_right he.le
      rw [this]
      norm_num
    simpa using this
  · intro hp
    simp only [decide_eq_true_eq] at hp
    simp only [if_pos hp]

theorem scrRel_extra_update (e : ℚ) (he : 0 < e) (b t : LoanState) (h : ScrRel b t) :
    ScrRel b (extraApplied e t) := by
  obtain ⟨hd, hact⟩ := h
  refine ⟨domRel_extra_update e he b t hd, ?_⟩
  intro hup
  rw [extraApplied] at hup ⊢
  simp only [decide_eq_false_iff_not] at hup
  simp only [if_neg hup]
  exact lt_of_not_le hup

theorem fixedStrategyMonth_fst_none
    (step : Nat → LoanState → LoanState × Option DebtPaymentPlan)
    (cmp : LoanState → LoanState → ℚ) (e : ℚ) (m : Nat) (ss : List LoanState)
    (h : ¬ 0 < e ∨
      selectTargetIdx cmp (fun l => !l.isPaidOff) ((ss.map (step m)).map Prod.fst) = none) :
    (fixedStrategyMonth step cmp e m ss).1 = (ss.map (step m)).map Prod.fst := by
  rcases h with he | hsel
  · rw [fixedStrategyMonth, if_neg he]
  · by_cases he : 0 < e
    · rw [fixedStrategyMonth, if_pos he]
      rw [hsel]
    · rw [fixedStrategyMonth, if_neg he]

theorem fixedStrategyMonth_fst_some
    (step : Nat → LoanState → LoanState × Option DebtPaymentPlan)
    (cmp : LoanState → LoanState → ℚ) (e : ℚ) (m : Nat) (ss : List LoanState)
    (i : Nat) (t : LoanState) (he : 0 < e)
    (hsel : selectTargetIdx cmp (fun l => !l.isPaidOff) ((ss.map (step m)).map Prod.fst) =
      some (i, t)) :
    (fixedStrategyMonth step cmp e m ss).1 =
      ((ss.map (step m)).map Prod.fst).set i (extraApplied e t) := by
  rw [fixedStrategyMonth, if_pos he, hsel]
  exact applyExtraAt_fst e i t _ _

theorem fixedStrategyMonth_totalInterest
    (step : Nat → LoanState → LoanState × Option DebtPaymentPlan)
    (cmp : LoanState → LoanState → ℚ) (e : ℚ) (m : Nat) (ss : List LoanState) :
    (fixedStrategyMonth step cmp e m ss).2.totalInterest =
      (ss.map (fun s => (step m s).2.elim 0 DebtPaymentPlan.monthlyInterest)).sum := by
  have hI := filterMap_interest_sum (step m) ss
  by_cases he : 0 < e
  · rw [fixedStrategyMonth, if_pos he]
    rcases hsel : selectTargetIdx cmp (fun l => !l.isPaidOff)
        ((ss.map (step m)).map Prod.fst) with _ | p
    · exact hI
    · rcases p with ⟨i, t⟩
      exact (applyExtraAt_totalInterest e i t _ _).trans hI
  · rw [fixedStrategyMonth, if_neg he]
    exact hI

theorem baselineMonth_fst (m : Nat) (bs : List LoanState) :
    (baselineMonth m bs).1 = (bs.map (baselineLoanStep m)).map Prod.fst := rfl

theorem baselineMonth_totalInterest (m : Nat) (bs : List LoanState) :
    (baselineMonth m bs).2.totalInterest =
      (bs.map (fun b => (baselineLoanStep m b).2.elim 0 DebtPaymentPlan.monthlyInterest)).sum :=
  filterMap_interest_sum (baselineLoanStep m) bs

theorem domRel_month_fixed
    (step : Nat → LoanState → LoanState × Option DebtPaymentPlan)
    (cmp : LoanState → LoanState → ℚ) (e : ℚ) (m : Nat)
    (hstep : ∀ b s, DomRel b s →
      DomRel (baselineLoanStep m b).1 (step m s).1 ∧
      (step m s).2.elim 0 DebtPaymentPlan.monthlyInterest ≤
        (baselineLoanStep m b).2.elim 0 DebtPaymentPlan.monthlyInterest)
    {bs ss : List LoanState} (h : List.Forall₂ DomRel bs ss) :
    List.Forall₂ DomRel (baselineMonth m bs).1 (fixedStrategyMonth step cmp e m ss).1 ∧
    (fixedStrategyMonth step cmp e m ss).2.totalInterest ≤
      (baselineMonth m bs).2.totalInterest := by
  have hphase1 : List.Forall₂ DomRel ((bs.map (baselineLoanStep m)).map Prod.fst)
      ((ss.map (step m)).map Prod.fst) := by
    rw [List.map_map, List.map_map]
    exact forall2_map_rel (fun b s hbs => (hstep b s hbs).1) h
  constructor
  · rw [baselineMonth_fst]
    by_cases he : 0 < e
    · rcases hsel : selectTargetIdx cmp (fun l => !l.isPaidOff)
          ((ss.map (step m)).map Prod.fst) with _ | ⟨i, t⟩
      · rw [fixedStrategyMonth_fst_none step cmp e m ss (Or.inr hsel)]
        exact hphase1
      · rw [fixedStrategyMonth_fst_some step cmp e m ss i t he hsel]
        have hget := (selectTargetIdx_spec _ _ _ i t hsel).1
        exact forall2_set_right hphase1 i t _ hget
          (fun b hb => domRel_extra_update e he b t hb)
    · rw [fixedStrategyMonth_fst_none step cmp e m ss (Or.inl he)]
      exact hphase1
  · rw [fixedStrategyMonth_totalInterest, baselineMonth_totalInterest]
    exact forall2_sum_le _ _ (fun b s hbs => (hstep b s hbs).2) h

theorem scrapesMonth_fst_none (e : ℚ) (m : Nat) (ss : List LoanState) (pool : ℚ)
    (h : ¬ 0 < e + pool ∨
      selectTargetIdx scrapesCmp (fun l => !l.isPaidOff && decide (1/100 < l.currentBalance))
        ((ss.map (scrapesLoanStep m)).map (fun r => r.1)) = none) :
    (scrapesMonth e m ss pool).1 = (ss.map (scrapesLoanStep m)).map (fun r => r.1) := by
  rcases h with he | hsel
  · rw [scrapesMonth, if_neg he]
  · by_cases he : 0 < e + pool
    · rw [scrapesMonth, if_pos he, hsel]
    · rw [scrapesMonth, if_neg he]

theorem scrapesMonth_fst_some (e : ℚ) (m : Nat) (ss : List LoanState) (pool : ℚ)
    (i : Nat) (t : LoanState) (he : 0 < e + pool)
    (hsel : selectTargetIdx scrapesCmp
        (fun l => !l.isPaidOff && decide (1/100 < l.currentBalance))
        ((ss.map (scrapesLoanStep m)).map (fun r => r.1)) = some (i, t)) :
    (scrapesMonth e m ss pool).1 =
      ((ss.map (scrapesLoanStep m)).map (fun r => r.1)).set i (extraApplied (e + pool) t) := by
  simp only [scrapesMonth, if_pos he, hsel]
  rw [scrapesApplyExtra_fst]

theorem scrapesMonth_totalInterest2 (e : ℚ) (m : Nat) (ss : List LoanState) (pool : ℚ) :
    (scrapesMonth e m ss pool).2.1.totalInterest =
      (ss.map (fun s => (scrapesLoanStep m s).2.1.elim 0 DebtPaymentPlan.monthlyInterest)).sum := by
  have hI := filterMap_interest_sum_scr (scrapesLoanStep m) ss
  by_cases he : 0 < e + pool
  · rcases hsel : selectTargetIdx scrapesCmp
        (fun l => !l.isPaidOff && decide (1/100 < l.currentBalance))
        ((ss.map (scrapesLoanStep m)).map (fun r => r.1)) with _ | p
    · simp only [scrapesMonth, if_pos he, hsel]
      exact hI
    · rcases p with ⟨i, t⟩
      simp only [scrapesMonth, if_pos he, hsel]
      exact hI
  · simp only [scrapesMonth, if_neg he]
    exact hI

theorem scrRel_month (e pool : ℚ) (m : Nat) {bs ss : List LoanState}
    (h : List.Forall₂ ScrRel bs ss) :
    List.Forall₂ ScrRel (baselineMonth m bs).1 (scrapesMonth e m ss pool).1 ∧
    (scrapesMonth e m ss pool).2.1.totalInterest ≤ (baselineMonth m bs).2.totalInterest := by
  have hphase1 : List.Forall₂ ScrRel ((bs.map (baselineLoanStep m)).map Prod.fst)
      ((ss.map (scrapesLoanStep m)).map (fun r => r.1)) := by
    rw [List.map_map, List.map_map]
    exact forall2_map_rel (fun b s hbs => (scrRel_step m b s hbs).1) h
  constructor
  · rw [baselineMonth_fst]
    by_cases he : 0 < e + pool
    · rcases hsel : selectTargetIdx scrapesCmp
          (fun l => !l.isPaidOff && decide (1/100 < l.currentBalance))
          ((ss.map (scrapesLoanStep m)).map (fun r => r.1)) with _ | ⟨i, t⟩
      · rw [scrapesMonth_fst_none e m ss pool (Or.inr hsel)]
        exact hphase1
      · rw [scrapesMonth_fst_some e m ss pool i t he hsel]
        have hget := (selectTargetIdx_spec _ _ _ i t hsel).1
        exact forall2_set_right hphase1 i t _ hget
          (fun b hb => scrRel_extra_update (e + pool) he b t hb)
    · rw [scrapesMonth_fst_none e m ss pool (Or.inl he)]
      exact hphase1
  · rw [scrapesMonth_totalInterest2, baselineMonth_totalInterest]
    exact forall2_sum_le _ _ (fun b s hbs => (scrRel_step m b s hbs).2) h

theorem bside_step (m : Nat) (b : LoanState) (h : BSide b) :
    BSide (baselineLoanStep m b).1 ∧
    0 ≤ (baselineLoanStep m b).2.elim 0 DebtPaymentPlan.monthlyInterest := by
  obtain ⟨h1, h2, h3, h4, h5⟩ := h
  have hr' : (0:ℚ) ≤ b.interestRate / 100 / 12 := by positivity
  by_cases hm : b.isPaidOff = false
  · rcases h5 with hz | hgt
    · rw [baselineLoanStep_skip m b (by rw [hz]; norm_num)]
      exact ⟨⟨h1, h2, h3, h4, Or.inl hz⟩, le_rfl⟩
    · obtain ⟨hst, hrec⟩ := baselineLoanStep_proc m b hm hgt h3
      rw [hst, hrec]
      refine ⟨⟨h1, domStepBal_nonneg _ _ _ h2, ?_, ?_, ?_⟩, ?_⟩
      · calc domStepBal b.currentBalance b.interestRate b.currentMinimumPayment *
              (b.interestRate / 100 / 12)
            ≤ b.currentBalance * (b.interestRate / 100 / 12) :=
              mul_le_mul_of_nonneg_right
                (domStepBal_le b.currentBalance b.interestRate b.currentMinimumPayment h2 h3) hr'
          _ ≤ b.currentMinimumPayment := h3
      · intro hp
        exact domStepPaid_true_bal _ _ _ hp
      · by_cases hp : domStepPaid b.currentBalance b.interestRate b.currentMinimumPayment = true
        · exact Or.inl (domStepPaid_true_bal _ _ _ hp)
        · exact Or.inr (domStepPaid_false_bal _ _ _ (Bool.eq_false_iff.mpr hp ▸ rfl))
      · rw [monthlyInterestOf]
        positivity
  · rw [baselineLoanStep_skip m b (by tauto)]
    exact ⟨⟨h1, h2, h3, h4, h5⟩, le_rfl⟩

theorem bside_month (m : Nat) (bs : List LoanState) (h : ∀ b ∈ bs, BSide b) :
    (∀ b2 ∈ (baselineMonth m bs).1, BSide b2) ∧
    0 ≤ (baselineMonth m bs).2.totalInterest := by
  constructor
  · intro b2 hb2
    rw [baselineMonth_fst] at hb2
    simp only [List.map_map, List.mem_map] at hb2
    obtain ⟨b, hb, rfl⟩ := hb2
    exact (bside_step m b (h b hb)).1
  · rw [baselineMonth_totalInterest]
    apply List.sum_nonneg
    intro x hx
    simp only [List.mem_map] at hx
    obtain ⟨b, hb, rfl⟩ := hx
    exact (bside_step m b (h b hb)).2

theorem bside_run (fuel : Nat) : ∀ (m : Nat) (bs : List LoanState), (∀ b ∈ bs, BSide b) →
    0 ≤ ((baselineLoop fuel m bs).map MonthlyPaymentPlan.totalInterest).sum := by
  induction fuel with
  | zero =>
    intro m bs _
    simp [baselineLoop]
  | succ n ih =>
    intro m bs h
    rw [baselineLoop_succ]
    split
    · simp only [List.map_cons, List.sum_cons]
      have hm := bside_month m bs h
      have hrest := ih (m + 1) (baselineMonth m bs).1 hm.1
      linarith [hm.2]
    · simp

theorem domRel_run_fixed (step : Nat → LoanState → LoanState × Option DebtPaymentPlan)
    (cmp : LoanState → LoanState → ℚ) (e : ℚ)
    (hstep : ∀ m b s, DomRel b s →
      DomRel (baselineLoanStep m b).1 (step m s).1 ∧
      (step m s).2.elim 0 DebtPaymentPlan.monthlyInterest ≤
        (baselineLoanStep m b).2.elim 0 DebtPaymentPlan.monthlyInterest) :
    ∀ (fuel m : Nat) (bs ss : List LoanState), List.Forall₂ DomRel bs ss →
      (fixedStrategyLoop step cmp e fuel m ss).length ≤ (baselineLoop fuel m bs).length ∧
      ((fixedStrategyLoop step cmp e fuel m ss).map MonthlyPaymentPlan.totalInterest).sum ≤
        ((baselineLoop fuel m bs).map MonthlyPaymentPlan.totalInterest).sum := by
  intro fuel
  induction fuel with
  | zero =>
    intro m bs ss _
    constructor <;> simp [baselineLoop, fixedStrategyLoop]
  | succ n ih =>
    intro m bs ss h
    by_cases hg : ss.any (fun l => !l.isPaidOff) = true
    · have hgb : bs.any (fun l => !l.isPaidOff) = true :=
        forall2_any_transfer (fun b s hbs => hbs.2.2.2.2.2.2.1) h _
          (fun l hl => by simpa using hl) hg
      rw [fixedStrategyLoop_succ, if_pos hg, baselineLoop_succ, if_pos hgb]
      obtain ⟨hF, hI⟩ := domRel_month_fixed step cmp e m (hstep m) h
      obtain ⟨ihL, ihS⟩ := ih (m + 1) _ _ hF
      constructor
      · simpa using Nat.succ_le_succ ihL
      · simp only [List.map_cons, List.sum_cons]
        linarith
    · rw [fixedStrategyLoop_succ, if_neg hg]
      constructor
      · simp
      · have hB : ∀ b ∈ bs, BSide b := bside_of_forall2 (fun b s hbs => bside_of_domRel b s hbs) h
        simpa using bside_run (n + 1) m bs hB

theorem scrRel_run (e : ℚ) :
    ∀ (fuel m : Nat) (bs ss : List LoanState) (pool : ℚ), List.Forall₂ ScrRel bs ss →
      (scrapesLoop e fuel m ss pool).length ≤ (baselineLoop fuel m bs).length ∧
      (((scrapesLoop e fuel m ss pool).map Prod.fst).map MonthlyPaymentPlan.totalInterest).sum ≤
        ((baselineLoop fuel m bs).map MonthlyPaymentPlan.totalInterest).sum := by
  intro fuel
  induction fuel with
  | zero =>
    intro m bs ss pool _
    constructor <;> simp [baselineLoop, scrapesLoop]
  | succ n ih =>
    intro m bs ss pool h
    by_cases hg : ss.any (fun l => !l.isPaidOff && decide (1/100 < l.currentBalance)) = true
    · have hgb : bs.any (fun l => !l.isPaidOff) = true :=
        forall2_any_transfer (fun b s hbs => hbs.1.2.2.2.2.2.2.1) h _
          (fun l hl => by
            have h2 := (Bool.and_eq_true_iff.mp hl).1
            simpa using h2) hg
      rw [scrapesLoop_succ, if_pos hg, baselineLoop_succ, if_pos hgb]
      obtain ⟨hF, hI⟩ := scrRel_month e pool m h
      obtain ⟨ihL, ihS⟩ := ih (m + 1) _ _ _ hF
      constructor
      · simpa using Nat.succ_le_succ ihL
      · simp only [List.map_cons, List.map_cons, List.sum_cons]
        linarith
    · rw [scrapesLoop_succ, if_neg hg]
      constructor
      · simp
      · have hB : ∀ b ∈ bs, BSide b :=
          bside_of_forall2 (fun b s hbs => bside_of_domRel b s hbs.1) h
        simpa using bside_run (n + 1) m bs hB

theorem lumpAdjustedState_zero (loans : List Loan) (loan : Loan) :
    lumpAdjustedState loans 0 loan = initLoanState loan := by
  rw [lumpAdjustedState, initLoanState]
  simp

theorem forall2_map_same {α : Type} {R : LoanState → LoanState → Prop}
    (f g : α → LoanState) (P : α → Prop) (hfg : ∀ x, P x → R (f x) (g x)) :
    ∀ l : List α, (∀ x ∈ l, P x) → List.Forall₂ R (l.map f) (l.map g) := by
  intro l
  induction l with
  | nil =>
    intro _
    simp
  | cons a as ih =>
    intro h
    simp only [List.map_cons]
    exact List.Forall₂.cons (hfg a (h a (List.mem_cons_self a as)))
      (ih (fun x hx => h x (List.mem_cons_of_mem a hx)))

theorem domRel_init_pointwise (loan : Loan) (ha : 0 ≤ loan.interestRate)
    (hb : loan.currentBalance * (loan.interestRate / 100 / 12) ≤ loan.monthlyPayment)
    (hc : loan.currentBalance = 0 ∨ 1/100 < loan.currentBalance) :
    DomRel (initLoanState loan) (initLoanState loan) := by
  have h0 : 0 ≤ loan.currentBalance := by
    rcases hc with hz | hgt
    · rw [hz]
    · linarith
  refine ⟨rfl, rfl, ha, h0, le_rfl, hb, ?_, ?_, ?_, hc⟩
  all_goals
    intro hp
    simp [initLoanState] at hp

theorem scrapesLumpGo_zeroRem (sorted loans : List Loan) :
    ∀ ls : List Loan, scrapesLumpGo sorted loans ls 0 =
      ls.map (fun l => (l, l.currentBalance)) := by
  intro ls
  induction ls with
  | nil => rw [scrapesLumpGo, List.map_nil]
  | cons a as ih =>
    rw [scrapesLumpGo, if_neg (by norm_num), ih, List.map_cons]

theorem scrapesInit_zero (loans : List Loan) :
    (scrapesInit loans 0).1 = loans.map (fun (l : Loan) =>
      ({ id := l.id, currentBalance := l.currentBalance, interestRate := l.interestRate,
         originalMonthlyPayment := l.monthlyPayment, currentMinimumPayment := l.monthlyPayment,
         isPaidOff := decide (l.currentBalance ≤ 1/100) } : LoanState)) := by
  rw [scrapesInit, scrapesLumpBalances, scrapesLumpGo_zeroRem, List.map_map]
  rfl

theorem scrRel_init_pointwise (loan : Loan) (ha : 0 ≤ loan.interestRate)
    (hb : loan.currentBalance * (loan.interestRate / 100 / 12) ≤ loan.monthlyPayment)
    (hc : loan.currentBalance = 0 ∨ 1/100 < loan.currentBalance) :
    ScrRel (initLoanState loan)
      ({ id := loan.id, currentBalance := loan.currentBalance,
         interestRate := loan.interestRate,
         originalMonthlyPayment := loan.monthlyPayment,
         currentMinimumPayment := loan.monthlyPayment,
         isPaidOff := decide (loan.currentBalance ≤ 1/100) } : LoanState) := by
  have h0 : 0 ≤ loan.currentBalance := by
    rcases hc with hz | hgt
    · rw [hz]
    · linarith
  refine ⟨⟨rfl, rfl, ha, h0, le_rfl, hb, ?_, ?_, ?_, hc⟩, ?_⟩
  · intro hp
    simp [initLoanState] at hp
  · intro hp
    simp [initLoanState] at hp
  · intro hp
    simp only [decide_eq_true_eq] at hp
    rcases hc with hz | hgt
    · exact hz
    · linarith
  · intro hup
    simp only [decide_eq_false_iff_not] at hup
    exact lt_of_not_le hup

/-- C1: amended.  With `lumpSum = 0` and every loan non-negatively amortizing
at its minimum payment (non-negative rate, first-month interest covered by the
minimum payment, starting balance either 0 or above the 0.01 tolerance), the
baseline schedule dominates all three strategies in total interest and months. -/
theorem c1_baseline_dominance_under_no_negative_amortization
    (loans : List Loan) (extraPaymentBase : ℚ)
    (hH : ∀ loan ∈ loans, 0 ≤ loan.interestRate ∧
      loan.currentBalance * (loan.interestRate / 100 / 12) ≤ loan.monthlyPayment ∧
      (loan.currentBalance = 0 ∨ 1/100 < loan.currentBalance)) :
    ((calculateAvalancheFixedStrategy loans extraPaymentBase 0).totalInterest ≤
        ((calculateBaselineSchedule loans).map MonthlyPaymentPlan.totalInterest).sum ∧
      (calculateAvalancheFixedStrategy loans extraPaymentBase 0).monthlySchedule.length ≤
        (calculateBaselineSchedule loans).length) ∧
    ((calculateSnowballFixedStrategy loans extraPaymentBase 0).totalInterest ≤
        ((calculateBaselineSchedule loans).map MonthlyPaymentPlan.totalInterest).sum ∧
      (calculateSnowballFixedStrategy loans extraPaymentBase 0).monthlySchedule.length ≤
        (calculateBaselineSchedule loans).length) ∧
    ((calculateSnowballScrapesStrategy loans extraPaymentBase 0).totalInterest ≤
        ((calculateBaselineSchedule loans).map MonthlyPaymentPlan.totalInterest).sum ∧
      (calculateSnowballScrapesStrategy loans extraPaymentBase 0).monthlySchedule.length ≤
        (calculateBaselineSchedule loans).length) := by
  have hD : List.Forall₂ DomRel (loans.map initLoanState)
      (loans.map (lumpAdjustedState loans 0)) :=
    forall2_map_same initLoanState (lumpAdjustedState loans 0)
      (fun loan => 0 ≤ loan.interestRate ∧
        loan.currentBalance * (loan.interestRate / 100 / 12) ≤ loan.monthlyPayment ∧
        (loan.currentBalance = 0 ∨ 1/100 < loan.currentBalance))
      (fun x hx => by
        rw [lumpAdjustedState_zero]
        exact domRel_init_pointwise x hx.1 hx.2.1 hx.2.2) loans hH
  have hS : List.Forall₂ ScrRel (loans.map initLoanState) (scrapesInit loans 0).1 := by
    rw [scrapesInit_zero]
    exact forall2_map_same initLoanState _
      (fun loan => 0 ≤ loan.interestRate ∧
        loan.currentBalance * (loan.interestRate / 100 / 12) ≤ loan.monthlyPayment ∧
        (loan.currentBalance = 0 ∨ 1/100 < loan.currentBalance))
      (fun x hx => scrRel_init_pointwise x hx.1 hx.2.1 hx.2.2) loans hH
  have hA := domRel_run_fixed avalancheLoanStep avalancheCmp extraPaymentBase
    domRel_step_aval 600 1 (loans.map initLoanState) (loans.map (lumpAdjustedState loans 0)) hD
  have hN := domRel_run_fixed snowballLoanStep snowballFixedCmp extraPaymentBase
    domRel_step_snow 600 1 (loans.map initLoanState) (loans.map (lumpAdjustedState loans 0)) hD
  have hC := scrRel_run extraPaymentBase 600 1 (loans.map initLoanState)
    (scrapesInit loans 0).1 (scrapesInit loans 0).2 hS
  refine ⟨⟨hA.2, hA.1⟩, ⟨hN.2, hN.1⟩, ⟨hC.2, ?_⟩⟩
  show ((scrapesLoop extraPaymentBase 600 1 (scrapesInit loans 0).1
      (scrapesInit loans 0).2).map Prod.fst).length ≤ (calculateBaselineSchedule loans).length
  rw [List.length_map]
  exact hC.1

/-- Witness for the baseline-dominance theorem at a concrete one-loan input. -/
theorem c1_baseline_dominance_witness :
    (∀ loan ∈ [(⟨1, 100, 0, 20, 0, 12⟩ : Loan)], 0 ≤ loan.interestRate ∧
      loan.currentBalance * (loan.interestRate / 100 / 12) ≤ loan.monthlyPayment ∧
      (loan.currentBalance = 0 ∨ 1/100 < loan.currentBalance)) ∧
    (((calculateAvalancheFixedStrategy [(⟨1, 100, 0, 20, 0, 12⟩ : Loan)] 10 0).totalInterest ≤
        ((calculateBaselineSchedule [(⟨1, 100, 0, 20, 0, 12⟩ : Loan)]).map
          MonthlyPaymentPlan.totalInterest).sum ∧
      (calculateAvalancheFixedStrategy [(⟨1, 100, 0, 20, 0, 12⟩ : Loan)] 10
          0).monthlySchedule.length ≤
        (calculateBaselineSchedule [(⟨1, 100, 0, 20, 0, 12⟩ : Loan)]).length) ∧
    ((calculateSnowballFixedStrategy [(⟨1, 100, 0, 20, 0, 12⟩ : Loan)] 10 0).totalInterest ≤
        ((calculateBaselineSchedule [(⟨1, 100, 0, 20, 0, 12⟩ : Loan)]).map
          MonthlyPaymentPlan.totalInterest).sum ∧
      (calculateSnowballFixedStrategy [(⟨1, 100, 0, 20, 0, 12⟩ : Loan)] 10
          0).monthlySchedule.length ≤
        (calculateBaselineSchedule [(⟨1, 100, 0, 20, 0, 12⟩ : Loan)]).length) ∧
    ((calculateSnowballScrapesStrategy [(⟨1, 100, 0, 20, 0, 12⟩ : Loan)] 10 0).totalInterest ≤
        ((calculateBaselineSchedule [(⟨1, 100, 0, 20, 0, 12⟩ : Loan)]).map
          MonthlyPaymentPlan.totalInterest).sum ∧
      (calculateSnowballScrapesStrategy [(⟨1, 100, 0, 20, 0, 12⟩ : Loan)] 10
          0).monthlySchedule.length ≤
        (calculateBaselineSchedule [(⟨1, 100, 0, 20, 0, 12⟩ : Loan)]).length)) := by
  have hH : ∀ loan ∈ [(⟨1, 100, 0, 20, 0, 12⟩ : Loan)], 0 ≤ loan.interestRate ∧
      loan.currentBalance * (loan.interestRate / 100 / 12) ≤ loan.monthlyPayment ∧
      (loan.currentBalance = 0 ∨ 1/100 < loan.currentBalance) := by
    intro loan hl
    simp only [List.mem_singleton] at hl
    subst hl
    refine ⟨le_rfl, by norm_num, Or.inr (by norm_num)⟩
  exact ⟨hH, c1_baseline_dominance_under_no_negative_amortization
    [(⟨1, 100, 0, 20, 0, 12⟩ : Loan)] 10 hH⟩

/-! ## Per-debt payoff month (claim C9) -/

theorem findFirstIdx_none_spec (p : α → Bool) :
    ∀ l : List α, findFirstIdx p l = none → ∀ x ∈ l, p x = false := by
  intro l
  induction l with
  | nil => intro _ x hx; simp at hx
  | cons a as ih =>
    intro h x hx
    rw [findFirstIdx] at h
    split at h
    · simp at h
    · rename_i hpa
      rw [Option.map_eq_none'] at h
      rcases List.mem_cons.mp hx with rfl | hxs
      · simpa using hpa
      · exact ih h x hxs

theorem findFirstIdx_some_spec (p : α → Bool) :
    ∀ (l : List α) (k : Nat), findFirstIdx p l = some k →
      (∃ x, l.get? k = some x ∧ p x = true) ∧
      ∀ j, j < k → ∀ x, l.get? j = some x → p x = false := by
  intro l
  induction l with
  | nil => intro k h; simp [findFirstIdx] at h
  | cons a as ih =>
    intro k h
    rw [findFirstIdx] at h
    split at h
    · rename_i hpa
      obtain rfl : (0 : Nat) = k := Option.some.inj h
      refine ⟨⟨a, rfl, hpa⟩, ?_⟩
      intro j hj
      exact absurd hj (Nat.not_lt_zero j)
    · rename_i hpa
      rcases Option.map_eq_some'.mp h with ⟨k0, hk0, rfl⟩
      obtain ⟨⟨x, hget, hpx⟩, hprev⟩ := ih k0 hk0
      refine ⟨⟨x, by simpa using hget, hpx⟩, ?_⟩
      intro j hj y hy
      cases j with
      | zero =>
        obtain rfl : a = y := by simpa using hy
        simpa using hpa
      | succ j0 =>
        exact hprev j0 (Nat.lt_of_succ_lt_succ hj) y (by simpa using hy)

theorem perDebtDetailFor_payoffMonth (schedule : List MonthlyPaymentPlan) (loan : Loan) :
    (perDebtDetailFor schedule loan).payoffMonth =
      match findFirstIdx (hasPaidEntry loan.id) schedule with
      | some k => k + 1
      | none => (generateAmortizationSchedule loan 0 0).length := by
  rw [perDebtDetailFor]
  cases h : findFirstIdx (hasPaidEntry loan.id) schedule <;> simp [h]

/-- C9 counterexample: loan (id 1, balance 10, payment 100, term 1) whose own
baseline amortization takes 1 month, against a 2-month strategy schedule with
no `isPaidOff` entry for it.  The reported `payoffMonth` is 1 — the loan's
baseline schedule length — not the claimed strategy-schedule length 2. -/
theorem c9_fallback_is_baseline_length_not_schedule_length :
    ((calculatePerDebtDetails [⟨1, 10, 0, 100, 0, 1⟩]
        [⟨1, [], 0, 0, 0, 1, 0, 0, 1⟩, ⟨2, [], 0, 0, 0, 1, 0, 0, 1⟩]).map
      PerDebtDetail.payoffMonth) = [1] ∧
    ([⟨1, [], 0, 0, 0, 1, 0, 0, 1⟩, ⟨2, [], 0, 0, 0, 1, 0, 0, 1⟩] :
      List MonthlyPaymentPlan).length = 2 ∧
    (1 : Nat) ≠ 2 := by
  refine ⟨?_, rfl, by norm_num⟩
  with_unfolding_all decide

/-- C9 (amended).  For the `i`-th loan, `calculatePerDebtDetails` reports as
`payoffMonth` the 1-based index of the first schedule month containing a
payment entry for that loan with `isPaidOff = true`; when no such month
exists, it falls back to the length of the loan's own zero-extra baseline
amortization schedule `generateAmortizationSchedule(loan, 0, 0)` (not the
strategy schedule's length). -/
theorem c9_payoff_month_characterization (loans : List Loan)
    (schedule : List MonthlyPaymentPlan) (i : Nat) (loan : Loan)
    (hload : loans.get? i = some loan) :
    ∃ d, (calculatePerDebtDetails loans schedule).get? i = some d ∧
      d.loanId = loan.id ∧
      ((∃ k, (∃ m, schedule.get? k = some m ∧ hasPaidEntry loan.id m = true) ∧
          d.payoffMonth = k + 1 ∧
          ∀ j, j < k → ∀ m2, schedule.get? j = some m2 → hasPaidEntry loan.id m2 = false) ∨
        ((∀ m ∈ schedule, hasPaidEntry loan.id m = false) ∧
          d.payoffMonth = (generateAmortizationSchedule loan 0 0).length)) := by
  refine ⟨perDebtDetailFor schedule loan, ?_, rfl, ?_⟩
  · rw [calculatePerDebtDetails, List.get?_map, hload]
    rfl
  · cases hidx : findFirstIdx (hasPaidEntry loan.id) schedule with
    | some k =>
      left
      obtain ⟨⟨m, hm, hpm⟩, hprev⟩ := findFirstIdx_some_spec _ schedule k hidx
      exact ⟨k, ⟨m, hm, hpm⟩, by rw [perDebtDetailFor_payoffMonth, hidx], hprev⟩
    | none =>
      right
      exact ⟨fun m hm => findFirstIdx_none_spec _ schedule hidx m hm,
        by rw [perDebtDetailFor_payoffMonth, hidx]⟩

/-- Witness for `c9_payoff_month_characterization`: the one-loan list against
the empty schedule (no paid entry exists, so the baseline fallback applies). -/
theorem c9_payoff_month_characterization_witness :
    ([(⟨1, 10, 0, 100, 0, 1⟩ : Loan)].get? 0 = some ⟨1, 10, 0, 100, 0, 1⟩) ∧
    ∃ d, (calculatePerDebtDetails [⟨1, 10, 0, 100, 0, 1⟩] []).get? 0 = some d ∧
      d.loanId = (⟨1, 10, 0, 100, 0, 1⟩ : Loan).id ∧
      ((∃ k, (∃ m, ([] : List MonthlyPaymentPlan).get? k = some m ∧
            hasPaidEntry (⟨1, 10, 0, 100, 0, 1⟩ : Loan).id m = true) ∧
          d.payoffMonth = k + 1 ∧
          ∀ j, j < k → ∀ m2, ([] : List MonthlyPaymentPlan).get? j = some m2 →
            hasPaidEntry (⟨1, 10, 0, 100, 0, 1⟩ : Loan).id m2 = false) ∨
        ((∀ m ∈ ([] : List MonthlyPaymentPlan),
            hasPaidEntry (⟨1, 10, 0, 100, 0, 1⟩ : Loan).id m = false) ∧
          d.payoffMonth =
            (generateAmortizationSchedule ⟨1, 10, 0, 100, 0, 1⟩ 0 0).length)) :=
  ⟨rfl, c9_payoff_month_characterization [⟨1, 10, 0, 100, 0, 1⟩] [] 0 ⟨1, 10, 0, 100, 0, 1⟩ rfl⟩

/-- Witness for `c6_phase1_negative_principal_clamp` at the loan state
`⟨1, 100, 1200, 0, 0, false⟩` (balance 100, rate 1200, payment 0). -/
theorem c6_phase1_negative_principal_clamp_witness :
    ((⟨1, 100, 1200, 0, 0, false⟩ : LoanState).isPaidOff = false ∧
      (⟨1, 100, 1200, 0, 0, false⟩ : LoanState).currentMinimumPayment -
        monthlyInterestOf ⟨1, 100, 1200, 0, 0, false⟩ < 0) ∧
    (snowballLoanStep 1 ⟨1, 100, 1200, 0, 0, false⟩).2.map DebtPaymentPlan.principalPayment =
      some (min (⟨1, 100, 1200, 0, 0, false⟩ : LoanState).currentBalance 50) :=
  ⟨⟨rfl, by norm_num [monthlyInterestOf]⟩,
    (c6_phase1_negative_principal_clamp 1 ⟨1, 100, 1200, 0, 0, false⟩ rfl
      (by norm_num [monthlyInterestOf])).1⟩

end PF
